import Mathlib

/-! Verification of the bytebot WebSocket connection manager
    (bytebot/websocket/manager.py and bytebot/websocket/events.py).

    Python dicts are modeled as insertion-ordered association lists
    (lookup of the first matching key, in-place replacement on update,
    append of fresh keys), Python sets as `Finset`, `datetime` values as
    naturals, and task UUIDs as naturals (only equality on them is used).
    The async transport is modeled by explicit success oracles: a `Bool`
    (or `ConnId → Bool`) argument telling whether each transport write
    succeeds.  Two ghost fields record externally observable actions:
    `close_calls` logs every invocation of `websocket.close()`, and
    `used_ids` logs every connection id ever issued by `connect`
    (the router draws ids from `uuid4()`, hence fresh ids). -/

namespace Bytebot

abbrev ConnId := String
abbrev UserId := String
abbrev TaskId := Nat

/-- First-match lookup in an association list (Python `dict.get`). -/
def lookupA {κ β : Type} [DecidableEq κ] : List (κ × β) → κ → Option β
  | [], _ => none
  | (k, v) :: rest, k0 => if k = k0 then some v else lookupA rest k0

/-- Insertion-ordered update (Python `d[k] = v`): replace the first binding
    of `k` in place, or append a fresh binding at the end. -/
def insertA {κ β : Type} [DecidableEq κ] : List (κ × β) → κ → β → List (κ × β)
  | [], k, v => [(k, v)]
  | (k1, v1) :: rest, k, v =>
      if k1 = k then (k, v) :: rest else (k1, v1) :: insertA rest k v

/-- Deletion (Python `del d[k]`). -/
def eraseA {κ β : Type} [DecidableEq κ] (m : List (κ × β)) (k : κ) : List (κ × β) :=
  m.filter (fun p => decide (p.1 ≠ k))

/-- WebSocketEventType (events.py lines 11-55).  The enum's own source
    comments group system_status, error and heartbeat under "System
    events". -/
inductive WebSocketEventType
  | connect
  | disconnect
  | task_created
  | task_updated
  | task_started
  | task_paused
  | task_resumed
  | task_completed
  | task_failed
  | task_cancelled
  | task_progress
  | message_created
  | message_updated
  | message_processed
  | message_failed
  | summary_created
  | summary_updated
  | summary_approved
  | summary_archived
  | ai_thinking
  | ai_tool_use
  | ai_tool_result
  | ai_response
  | system_status
  | error
  | heartbeat
  | desktop_action
  | desktop_screenshot
  | desktop_status
deriving DecidableEq, Repr

/-- WebSocketEvent (events.py lines 58-85).  The generated `id : UUID`
    field is omitted: the manager never reads it.  `data` is an opaque
    string key/value payload (dict rendered as an association list). -/
structure WebSocketEvent where
  type : WebSocketEventType
  data : List (String × String)
  timestamp : Nat
  task_id : Option TaskId
  user_id : Option UserId
  session_id : Option String
deriving DecidableEq, Repr

/-- WebSocketEvent.create_heartbeat_event (events.py lines 201-213):
    type HEARTBEAT, payload holding only the current timestamp, no
    task_id, and user_id/session_id passed through from the arguments. -/
def WebSocketEvent.create_heartbeat_event (now : Nat)
    (user_id : Option UserId) (session_id : Option String) : WebSocketEvent :=
  { type := WebSocketEventType.heartbeat
    data := [("timestamp", toString now)]
    timestamp := now
    task_id := none
    user_id := user_id
    session_id := session_id }

/-- WebSocketEvent.create_system_event (events.py lines 163-177). -/
def WebSocketEvent.create_system_event (event_type : WebSocketEventType)
    (data : List (String × String)) (now : Nat)
    (user_id : Option UserId) (session_id : Option String) : WebSocketEvent :=
  { type := event_type
    data := data
    timestamp := now
    task_id := none
    user_id := user_id
    session_id := session_id }

/-- WebSocketConnection (manager.py lines 18-35).  The transport handle
    itself is not part of the state; its behaviour enters through the
    send/close oracles of the operations. -/
structure WebSocketConnection where
  connection_id : ConnId
  user_id : Option UserId
  session_id : Option String
  connected_at : Nat
  last_heartbeat : Nat
  subscribed_tasks : Finset TaskId
  is_active : Bool
deriving DecidableEq

/-- Mutable state of WebSocketManager (manager.py lines 79-84), plus two
    ghost fields recording externally observable transport actions. -/
structure WebSocketManager where
  connections : List (ConnId × WebSocketConnection)
  user_connections : List (UserId × Finset ConnId)
  task_subscribers : List (TaskId × Finset ConnId)
  close_calls : List ConnId
  used_ids : Finset ConnId
deriving DecidableEq

/-- The freshly constructed manager (manager.py lines 79-84). -/
def WebSocketManager.empty : WebSocketManager :=
  { connections := []
    user_connections := []
    task_subscribers := []
    close_calls := []
    used_ids := ∅ }

/-- The user-index tracking step of connect (manager.py lines 126-129):
    the Python truthiness test `if user_id:` skips tracking for both
    None and the empty string. -/
def track_user (m : List (UserId × Finset ConnId)) (user_id : Option UserId)
    (connection_id : ConnId) : List (UserId × Finset ConnId) :=
  match user_id with
  | some u =>
      if u = "" then m
      else insertA m u (insert connection_id ((lookupA m u).getD ∅))
  | none => m

/-- WebSocketManager.connect (manager.py lines 106-142).  The transport
    accept is assumed to succeed (on accept failure the connection is
    never registered and the state is unchanged).  `send_ok` tells
    whether the confirmation send succeeds; on failure `send_event`
    marks the connection inactive (manager.py lines 42-45).  The Python
    truthiness test `if user_id:` skips index tracking for both None
    and the empty string. -/
def connect (st : WebSocketManager) (connection_id : ConnId)
    (user_id : Option UserId) (session_id : Option String)
    (now : Nat) (send_ok : Bool) : WebSocketManager :=
  let conn : WebSocketConnection :=
    { connection_id := connection_id
      user_id := user_id
      session_id := session_id
      connected_at := now
      last_heartbeat := now
      subscribed_tasks := ∅
      is_active := send_ok }
  { connections := insertA st.connections connection_id conn
    user_connections := track_user st.user_connections user_id connection_id
    task_subscribers := st.task_subscribers
    close_calls := st.close_calls
    used_ids := insert connection_id st.used_ids }

/-- Shared index-removal step (manager.py lines 153-156, 159-163 and
    292-295): discard `cid` from the set stored at `k` if the key is
    present, deleting the key when its set becomes empty. -/
def discard_prune {κ : Type} [DecidableEq κ]
    (m : List (κ × Finset ConnId)) (k : κ) (cid : ConnId) :
    List (κ × Finset ConnId) :=
  match lookupA m k with
  | none => m
  | some s =>
      let s1 := s.erase cid
      if s1 = ∅ then eraseA m k else insertA m k s1

/-- The task-index removal loop of disconnect (manager.py lines
    159-163): discard the connection id from the subscriber set of every
    listed task, pruning emptied entries.  Python iterates the
    connection's task set in unspecified order; the steps touch pairwise
    distinct keys, so the order is immaterial. -/
def prune_all (m : List (TaskId × Finset ConnId)) (ts : List TaskId)
    (cid : ConnId) : List (TaskId × Finset ConnId) :=
  ts.foldl (fun acc t => discard_prune acc t cid) m

/-- The user-index removal step of disconnect (manager.py lines
    152-156): guarded by the same truthiness test as tracking, and by
    key presence. -/
def untrack_user (m : List (UserId × Finset ConnId)) (user_id : Option UserId)
    (connection_id : ConnId) : List (UserId × Finset ConnId) :=
  match user_id with
  | some u => if u = "" then m else discard_prune m u connection_id
  | none => m

/-- WebSocketManager.disconnect (manager.py lines 144-173).
    `websocket.close()` is attempted only when the connection is still
    marked active; a failing close is logged and swallowed, so the
    resulting state does not depend on the close outcome and the ghost
    log records the invocation either way. -/
def disconnect (st : WebSocketManager) (connection_id : ConnId) : WebSocketManager :=
  match lookupA st.connections connection_id with
  | none => st
  | some conn =>
      { connections := eraseA st.connections connection_id
        user_connections :=
          untrack_user st.user_connections conn.user_id connection_id
        task_subscribers :=
          prune_all st.task_subscribers (conn.subscribed_tasks.sort (· ≤ ·))
            connection_id
        close_calls :=
          if conn.is_active then st.close_calls ++ [connection_id]
          else st.close_calls
        used_ids := st.used_ids }

/-- State effect of a completed task subscription: the body of
    _handle_subscribe_task after validation (manager.py lines 250-256),
    combining WebSocketConnection.subscribe_to_task with the
    task_subscribers update.  A no-op on an unregistered id (the Python
    handler is only reachable for registered connections). -/
def subscribe_task (st : WebSocketManager) (connection_id : ConnId)
    (task_id : TaskId) : WebSocketManager :=
  match lookupA st.connections connection_id with
  | none => st
  | some conn =>
      { connections := insertA st.connections connection_id
          ({ conn with subscribed_tasks := insert task_id conn.subscribed_tasks })
        user_connections := st.user_connections
        task_subscribers := insertA st.task_subscribers task_id
          (insert connection_id ((lookupA st.task_subscribers task_id).getD ∅))
        close_calls := st.close_calls
        used_ids := st.used_ids }

/-- State effect of a completed task unsubscription: the body of
    _handle_unsubscribe_task after validation (manager.py lines 288-295),
    combining WebSocketConnection.unsubscribe_from_task with the
    task_subscribers removal. -/
def unsubscribe_task (st : WebSocketManager) (connection_id : ConnId)
    (task_id : TaskId) : WebSocketManager :=
  match lookupA st.connections connection_id with
  | none => st
  | some conn =>
      { connections := insertA st.connections connection_id
          ({ conn with subscribed_tasks := conn.subscribed_tasks.erase task_id })
        user_connections := st.user_connections
        task_subscribers := discard_prune st.task_subscribers task_id connection_id
        close_calls := st.close_calls
        used_ids := st.used_ids }

/-- Shapes of the data dictionaries carried by manager responses. -/
inductive ResponseData
  | empty
  | subscription (task_id : TaskId) (subscribed : Bool)
  | heartbeat_time (timestamp : Nat)
  | status (connection_id : ConnId) (user_id : Option UserId)
      (session_id : Option String) (connected_at : Nat)
      (subscribed_tasks : Finset TaskId) (total_connections : Nat)
deriving DecidableEq

/-- WebSocketResponse (events.py lines 232-249). -/
structure WebSocketResponse where
  type : String
  data : ResponseData
  success : Bool
  error : Option String
  request_id : Option String
deriving DecidableEq

/-- WebSocketResponse.success_response (events.py lines 251-264). -/
def WebSocketResponse.success_response (message_type : String)
    (data : ResponseData) (request_id : Option String) : WebSocketResponse :=
  { type := message_type
    data := data
    success := true
    error := none
    request_id := request_id }

/-- WebSocketResponse.error_response (events.py lines 266-280). -/
def WebSocketResponse.error_response (message_type : String)
    (error_message : String) (request_id : Option String) : WebSocketResponse :=
  { type := message_type
    data := ResponseData.empty
    success := false
    error := some error_message
    request_id := request_id }

/-- Projection of an inbound message_data dict onto the three reads the
    manager performs on it: the "type" discriminator, data.get("task_id")
    and the optional request_id.  Pydantic validation of WebSocketMessage
    (events.py lines 216-221) succeeds exactly when "type" is present
    (data and request_id have defaults). -/
structure RawMessage where
  type : Option String
  data_task_id : Option String
  request_id : Option String
deriving DecidableEq, Repr

/-- WebSocketManager._handle_subscribe_task (manager.py lines 226-262).
    `uuid_parse` abstracts `UUID(task_id_str)`; `none` models a
    ValueError.  The Python falsiness test `if not task_id_str` rejects
    a missing key and the empty string alike.  Within the dispatcher the
    message type is the literal "subscribe_task". -/
def handle_subscribe_task (uuid_parse : String → Option TaskId)
    (st : WebSocketManager) (connection_id : ConnId) (msg : RawMessage) :
    WebSocketManager × WebSocketResponse :=
  match msg.data_task_id with
  | none =>
      (st, WebSocketResponse.error_response "subscribe_task" "task_id is required"
        msg.request_id)
  | some s =>
      if s = "" then
        (st, WebSocketResponse.error_response "subscribe_task" "task_id is required"
          msg.request_id)
      else
        match uuid_parse s with
        | none =>
            (st, WebSocketResponse.error_response "subscribe_task"
              "Invalid task_id format" msg.request_id)
        | some task_id =>
            (subscribe_task st connection_id task_id,
             WebSocketResponse.success_response "subscribe_task"
               (ResponseData.subscription task_id true) msg.request_id)

/-- WebSocketManager._handle_unsubscribe_task (manager.py lines 264-301). -/
def handle_unsubscribe_task (uuid_parse : String → Option TaskId)
    (st : WebSocketManager) (connection_id : ConnId) (msg : RawMessage) :
    WebSocketManager × WebSocketResponse :=
  match msg.data_task_id with
  | none =>
      (st, WebSocketResponse.error_response "unsubscribe_task" "task_id is required"
        msg.request_id)
  | some s =>
      if s = "" then
        (st, WebSocketResponse.error_response "unsubscribe_task" "task_id is required"
          msg.request_id)
      else
        match uuid_parse s with
        | none =>
            (st, WebSocketResponse.error_response "unsubscribe_task"
              "Invalid task_id format" msg.request_id)
        | some task_id =>
            (unsubscribe_task st connection_id task_id,
             WebSocketResponse.success_response "unsubscribe_task"
               (ResponseData.subscription task_id false) msg.request_id)

/-- WebSocketManager._handle_heartbeat (manager.py lines 303-315): a
    second update_heartbeat on the (already bumped) connection, then a
    success response carrying the server time. -/
def handle_heartbeat (st : WebSocketManager) (connection_id : ConnId)
    (conn : WebSocketConnection) (now : Nat) (msg : RawMessage) :
    WebSocketManager × WebSocketResponse :=
  let st1 : WebSocketManager :=
    { st with connections :=
        insertA st.connections connection_id ({ conn with last_heartbeat := now }) }
  (st1,
   WebSocketResponse.success_response "heartbeat" (ResponseData.heartbeat_time now)
     msg.request_id)

/-- WebSocketManager._handle_get_status (manager.py lines 317-335). -/
def handle_get_status (st : WebSocketManager) (conn : WebSocketConnection)
    (msg : RawMessage) : WebSocketManager × WebSocketResponse :=
  (st, WebSocketResponse.success_response "get_status"
    (ResponseData.status conn.connection_id conn.user_id conn.session_id
      conn.connected_at conn.subscribed_tasks st.connections.length)
    msg.request_id)

/-- The dispatch chain of handle_message (manager.py lines 203-217),
    applied to the heartbeat-bumped state and connection. -/
def dispatch_message (uuid_parse : String → Option TaskId)
    (st : WebSocketManager) (connection_id : ConnId)
    (conn1 : WebSocketConnection) (message_data : RawMessage) (now : Nat)
    (ty : String) : WebSocketManager × WebSocketResponse :=
  if ty = "subscribe_task" then
    handle_subscribe_task uuid_parse st connection_id message_data
  else if ty = "unsubscribe_task" then
    handle_unsubscribe_task uuid_parse st connection_id message_data
  else if ty = "heartbeat" then
    handle_heartbeat st connection_id conn1 now message_data
  else if ty = "get_status" then
    handle_get_status st conn1 message_data
  else
    (st, WebSocketResponse.error_response ty
      ("Unknown message type: " ++ ty) message_data.request_id)

/-- WebSocketManager.handle_message (manager.py lines 175-224).  The
    unknown-connection error response is built without a request id
    (manager.py lines 184-187); the malformed-message response echoes
    message_data.get("request_id") (lines 193-197); on a well-formed
    message the connection's heartbeat is bumped before dispatch
    (line 200).  The handlers raise no exceptions under this model, so
    the final catch-all branch (lines 218-224) is unreachable. -/
def handle_message (uuid_parse : String → Option TaskId) (st : WebSocketManager)
    (connection_id : ConnId) (message_data : RawMessage) (now : Nat) :
    WebSocketManager × WebSocketResponse :=
  match lookupA st.connections connection_id with
  | none => (st, WebSocketResponse.error_response "error" "Connection not found" none)
  | some conn =>
      match message_data.type with
      | none =>
          (st, WebSocketResponse.error_response "error" "Invalid message format"
            message_data.request_id)
      | some ty =>
          let conn1 : WebSocketConnection := { conn with last_heartbeat := now }
          let st1 : WebSocketManager :=
            { st with connections := insertA st.connections connection_id conn1 }
          dispatch_message uuid_parse st1 connection_id conn1 message_data now ty

/-- Target-set resolution of WebSocketManager.broadcast_event
    (manager.py lines 342-355): task subscribers when task_id is set,
    plus the user's connections when user_id is truthy, plus every
    connection when the event type is SYSTEM_STATUS or ERROR. -/
def broadcast_targets (st : WebSocketManager) (event : WebSocketEvent) :
    Finset ConnId :=
  let from_task : Finset ConnId :=
    match event.task_id with
    | some t => (lookupA st.task_subscribers t).getD ∅
    | none => ∅
  let from_user : Finset ConnId :=
    match event.user_id with
    | some u => if u = "" then ∅ else (lookupA st.user_connections u).getD ∅
    | none => ∅
  let from_system : Finset ConnId :=
    if event.type = WebSocketEventType.system_status ∨
       event.type = WebSocketEventType.error
    then (st.connections.map Prod.fst).toFinset else ∅
  from_task ∪ from_user ∪ from_system

/-- Effect of a failed send on the registry entry of its target:
    send_event sets is_active to False (manager.py lines 42-45). -/
def mark_inactive (st : WebSocketManager) (cid : ConnId)
    (conn : WebSocketConnection) : WebSocketManager :=
  { st with connections :=
      insertA st.connections cid ({ conn with is_active := false }) }

/-- Per-target send phase shared by broadcast_event, send_to_user and
    send_to_task_subscribers (manager.py lines 357-364, 377-383 and
    394-400): look each target up, skip it when unregistered or
    inactive, and on a failing send mark the connection inactive
    (send_event, manager.py lines 42-45) and record it as failed.
    Returns the post-send state with the lists of delivered and failed
    targets.  Python iterates the target set in unspecified order; the
    order is immaterial because each step touches only its own
    connection, and is fixed here to registry order. -/
def send_loop (send_ok : ConnId → Bool) :
    WebSocketManager → List ConnId → WebSocketManager × List ConnId × List ConnId
  | st, [] => (st, [], [])
  | st, cid :: rest =>
      match lookupA st.connections cid with
      | none => send_loop send_ok st rest
      | some conn =>
          if conn.is_active then
            if send_ok cid then
              let r := send_loop send_ok st rest
              (r.1, cid :: r.2.1, r.2.2)
            else
              let r := send_loop send_ok (mark_inactive st cid conn) rest
              (r.1, r.2.1, cid :: r.2.2)
          else send_loop send_ok st rest

/-- WebSocketManager.broadcast_event (manager.py lines 337-370): resolve
    the targets, send to each, then disconnect every failed target.
    Besides the final state it returns the ghost lists of connection ids
    whose transport write succeeded (delivered) and failed. -/
def broadcast_event (send_ok : ConnId → Bool) (st : WebSocketManager)
    (event : WebSocketEvent) : WebSocketManager × List ConnId × List ConnId :=
  if st.connections = [] then (st, [], [])
  else
    let targets := broadcast_targets st event
    let order := (st.connections.map Prod.fst).filter (fun c => decide (c ∈ targets))
    let r := send_loop send_ok st order
    (r.2.2.foldl (fun acc c => disconnect acc c) r.1, r.2.1, r.2.2)

/-- WebSocketManager.send_to_user (manager.py lines 372-387). -/
def send_to_user (send_ok : ConnId → Bool) (st : WebSocketManager)
    (user_id : UserId) (event : WebSocketEvent) :
    WebSocketManager × List ConnId × List ConnId :=
  match lookupA st.user_connections user_id with
  | none => (st, [], [])
  | some s =>
      let order := (st.connections.map Prod.fst).filter (fun c => decide (c ∈ s))
      let r := send_loop send_ok st order
      (r.2.2.foldl (fun acc c => disconnect acc c) r.1, r.2.1, r.2.2)

/-- WebSocketManager.send_to_task_subscribers (manager.py lines 389-404). -/
def send_to_task_subscribers (send_ok : ConnId → Bool) (st : WebSocketManager)
    (task_id : TaskId) (event : WebSocketEvent) :
    WebSocketManager × List ConnId × List ConnId :=
  match lookupA st.task_subscribers task_id with
  | none => (st, [], [])
  | some s =>
      let order := (st.connections.map Prod.fst).filter (fun c => decide (c ∈ s))
      let r := send_loop send_ok st order
      (r.2.2.foldl (fun acc c => disconnect acc c) r.1, r.2.1, r.2.2)

/-- One iteration body of WebSocketManager._heartbeat_loop (manager.py
    lines 421-434): after the interval sleep, if any connections exist,
    build a heartbeat event with the factory defaults and broadcast it. -/
def heartbeat_iteration (send_ok : ConnId → Bool) (st : WebSocketManager)
    (now : Nat) : WebSocketManager × List ConnId × List ConnId :=
  if st.connections = [] then (st, [], [])
  else broadcast_event send_ok st (WebSocketEvent.create_heartbeat_event now none none)

/-- Manager states reachable by completed operations.  Connection ids
    come from uuid4 (router.py line 28) and are therefore assumed never
    to repeat, expressed through the ghost `used_ids` log. -/
inductive Reached : WebSocketManager → Prop
  | initial : Reached WebSocketManager.empty
  | step_connect (st : WebSocketManager) (cid : ConnId) (uid : Option UserId)
      (sid : Option String) (now : Nat) (ok : Bool) :
      Reached st → cid ∉ st.used_ids → Reached (connect st cid uid sid now ok)
  | step_disconnect (st : WebSocketManager) (cid : ConnId) :
      Reached st → Reached (disconnect st cid)
  | step_subscribe (st : WebSocketManager) (cid : ConnId) (t : TaskId) :
      Reached st → Reached (subscribe_task st cid t)
  | step_unsubscribe (st : WebSocketManager) (cid : ConnId) (t : TaskId) :
      Reached st → Reached (unsubscribe_task st cid t)
  | step_message (st : WebSocketManager) (up : String → Option TaskId)
      (cid : ConnId) (msg : RawMessage) (now : Nat) :
      Reached st → Reached (handle_message up st cid msg now).1
  | step_broadcast (st : WebSocketManager) (ok : ConnId → Bool)
      (ev : WebSocketEvent) :
      Reached st → Reached (broadcast_event ok st ev).1
  | step_to_user (st : WebSocketManager) (ok : ConnId → Bool) (u : UserId)
      (ev : WebSocketEvent) :
      Reached st → Reached (send_to_user ok st u ev).1
  | step_to_task (st : WebSocketManager) (ok : ConnId → Bool) (t : TaskId)
      (ev : WebSocketEvent) :
      Reached st → Reached (send_to_task_subscribers ok st t ev).1
  | step_heartbeat (st : WebSocketManager) (ok : ConnId → Bool) (now : Nat) :
      Reached st → Reached (heartbeat_iteration ok st now).1

/-! Association-list lemmas. -/

theorem lookupA_insertA {κ β : Type} [DecidableEq κ] (m : List (κ × β))
    (k k0 : κ) (v : β) :
    lookupA (insertA m k v) k0 = if k = k0 then some v else lookupA m k0 := by
  induction m with
  | nil => simp [insertA, lookupA]
  | cons p rest ih =>
    obtain ⟨k1, v1⟩ := p
    by_cases h1 : k1 = k
    · subst h1
      by_cases h2 : k1 = k0 <;> simp [insertA, lookupA, h2]
    · by_cases h2 : k1 = k0
      · subst h2
        have hk : ¬ k = k1 := fun he => h1 he.symm
        simp [insertA, h1, lookupA, hk]
      · simp [insertA, h1, lookupA, h2, ih]

theorem lookupA_eraseA {κ β : Type} [DecidableEq κ] (m : List (κ × β)) (k k0 : κ) :
    lookupA (eraseA m k) k0 = if k = k0 then none else lookupA m k0 := by
  induction m with
  | nil => simp [eraseA, lookupA]
  | cons p rest ih =>
    obtain ⟨k1, v1⟩ := p
    by_cases h1 : k1 = k
    · subst h1
      by_cases h2 : k1 = k0
      · subst h2
        simp [eraseA, lookupA] at ih ⊢
        simpa using ih
      · have hk : ¬ k1 = k0 := h2
        simp [eraseA, lookupA] at ih ⊢
        simpa [hk] using ih
    · by_cases h2 : k1 = k0
      · subst h2
        have hk : ¬ k = k1 := fun he => h1 he.symm
        simp [eraseA, lookupA, h1, hk]
      · simp [eraseA, lookupA, h1, h2] at ih ⊢
        exact ih

theorem mem_of_lookupA {κ β : Type} [DecidableEq κ] {m : List (κ × β)} {k : κ}
    {v : β} (h : lookupA m k = some v) : (k, v) ∈ m := by
  induction m with
  | nil => simp [lookupA] at h
  | cons p rest ih =>
    obtain ⟨k1, v1⟩ := p
    by_cases h1 : k1 = k
    · subst h1
      simp [lookupA] at h
      simp [h]
    · simp [lookupA, h1] at h
      exact List.mem_cons_of_mem _ (ih h)

theorem lookupA_of_mem_nodup {κ β : Type} [DecidableEq κ] {m : List (κ × β)}
    {p : κ × β} (hnd : (m.map Prod.fst).Nodup) (hp : p ∈ m) :
    lookupA m p.1 = some p.2 := by
  induction m with
  | nil => simp at hp
  | cons q rest ih =>
    obtain ⟨k1, v1⟩ := q
    rw [List.map_cons, List.nodup_cons] at hnd
    rcases List.mem_cons.mp hp with he | hm
    · subst he
      simp [lookupA]
    · have hk : ¬ k1 = p.1 := by
        intro he
        exact hnd.1 (by rw [he] ; exact List.mem_map.mpr ⟨p, hm, rfl⟩)
      simp [lookupA, hk]
      exact ih hnd.2 hm

theorem keys_insertA_of_lookup {κ β : Type} [DecidableEq κ] {m : List (κ × β)}
    {k : κ} {v0 : β} (h : lookupA m k = some v0) (v : β) :
    (insertA m k v).map Prod.fst = m.map Prod.fst := by
  induction m with
  | nil => simp [lookupA] at h
  | cons p rest ih =>
    obtain ⟨k1, v1⟩ := p
    by_cases h1 : k1 = k
    · subst h1
      simp [insertA]
    · simp [lookupA, h1] at h
      simp [insertA, h1, ih h]

theorem keys_insertA_of_not_lookup {κ β : Type} [DecidableEq κ] {m : List (κ × β)}
    {k : κ} (h : lookupA m k = none) (v : β) :
    (insertA m k v).map Prod.fst = m.map Prod.fst ++ [k] := by
  induction m with
  | nil => simp [insertA]
  | cons p rest ih =>
    obtain ⟨k1, v1⟩ := p
    by_cases h1 : k1 = k
    · subst h1
      simp [lookupA] at h
    · simp [lookupA, h1] at h
      simp [insertA, h1, ih h]

theorem nodup_keys_insertA {κ β : Type} [DecidableEq κ] {m : List (κ × β)}
    (hnd : (m.map Prod.fst).Nodup) (k : κ) (v : β) :
    ((insertA m k v).map Prod.fst).Nodup := by
  cases h : lookupA m k with
  | some w => rw [keys_insertA_of_lookup h] ; exact hnd
  | none =>
      rw [keys_insertA_of_not_lookup h]
      refine List.Nodup.append hnd (List.nodup_singleton k) ?_
      intro x hx hx1
      simp at hx1
      subst hx1
      rcases List.mem_map.mp hx with ⟨p, hp, he⟩
      have := lookupA_of_mem_nodup hnd hp
      rw [he] at this
      rw [h] at this
      exact Option.noConfusion this

theorem keys_eraseA_sublist {κ β : Type} [DecidableEq κ] (m : List (κ × β)) (k : κ) :
    ((eraseA m k).map Prod.fst).Sublist (m.map Prod.fst) :=
  List.Sublist.map Prod.fst (List.filter_sublist m)

theorem nodup_keys_eraseA {κ β : Type} [DecidableEq κ] {m : List (κ × β)}
    (hnd : (m.map Prod.fst).Nodup) (k : κ) :
    ((eraseA m k).map Prod.fst).Nodup :=
  (keys_eraseA_sublist m k).nodup hnd

theorem insertA_insertA {κ β : Type} [DecidableEq κ] (m : List (κ × β))
    (k : κ) (v w : β) : insertA (insertA m k v) k w = insertA m k w := by
  induction m with
  | nil => simp [insertA]
  | cons p rest ih =>
    obtain ⟨k1, v1⟩ := p
    by_cases h1 : k1 = k
    · subst h1
      simp [insertA]
    · simp [insertA, h1, ih]

theorem insertA_lookup_self {κ β : Type} [DecidableEq κ] {m : List (κ × β)}
    {k : κ} {v : β} (h : lookupA m k = some v) : insertA m k v = m := by
  induction m with
  | nil => simp [lookupA] at h
  | cons p rest ih =>
    obtain ⟨k1, v1⟩ := p
    by_cases h1 : k1 = k
    · subst h1
      simp [lookupA] at h
      simp [insertA, h]
    · simp [lookupA, h1] at h
      simp [insertA, h1, ih h]

/-! Lemmas about the index-removal helpers. -/

theorem discard_prune_of_none {κ : Type} [DecidableEq κ]
    {m : List (κ × Finset ConnId)} {k : κ} (cid : ConnId)
    (h : lookupA m k = none) : discard_prune m k cid = m := by
  unfold discard_prune
  simp [h]

theorem lookupA_discard_prune_other {κ : Type} [DecidableEq κ]
    (m : List (κ × Finset ConnId)) (k : κ) (cid : ConnId) {k0 : κ}
    (hne : ¬ k = k0) :
    lookupA (discard_prune m k cid) k0 = lookupA m k0 := by
  unfold discard_prune
  cases h : lookupA m k with
  | none => rfl
  | some s =>
      by_cases hs : s.erase cid = ∅
      · simp [hs, lookupA_eraseA, hne]
      · simp [hs, lookupA_insertA, hne]

theorem lookupA_discard_prune_self {κ : Type} [DecidableEq κ]
    {m : List (κ × Finset ConnId)} {k : κ} (cid : ConnId) {s : Finset ConnId}
    (h : lookupA m k = some s) :
    lookupA (discard_prune m k cid) k =
      if s.erase cid = ∅ then none else some (s.erase cid) := by
  unfold discard_prune
  by_cases hs : s.erase cid = ∅
  · simp [h, hs, lookupA_eraseA]
  · simp [h, hs, lookupA_insertA]

theorem nodup_keys_discard_prune {κ : Type} [DecidableEq κ]
    {m : List (κ × Finset ConnId)} (hnd : (m.map Prod.fst).Nodup)
    (k : κ) (cid : ConnId) :
    ((discard_prune m k cid).map Prod.fst).Nodup := by
  unfold discard_prune
  cases h : lookupA m k with
  | none => exact hnd
  | some s =>
      by_cases hs : s.erase cid = ∅
      · simp only [hs, if_true]
        exact nodup_keys_eraseA hnd k
      · simp only [hs, if_false]
        exact nodup_keys_insertA hnd k (s.erase cid)

theorem lookup_discard_prune_some {κ : Type} [DecidableEq κ]
    {m : List (κ × Finset ConnId)} {k k0 : κ} {cid : ConnId} {s0 : Finset ConnId}
    (h : lookupA (discard_prune m k cid) k0 = some s0) :
    ∃ s1, lookupA m k0 = some s1 ∧
      (s0 = s1 ∨ (s0 = s1.erase cid ∧ s0 ≠ ∅)) := by
  by_cases he : k = k0
  · subst he
    cases h1 : lookupA m k with
    | none => rw [discard_prune_of_none cid h1] at h ; rw [h1] at h ; exact Option.noConfusion h
    | some s1 =>
        rw [lookupA_discard_prune_self cid h1] at h
        by_cases hs : s1.erase cid = ∅
        · simp [hs] at h
        · simp [hs] at h
          exact ⟨s1, rfl, Or.inr ⟨h.symm, h ▸ hs⟩⟩
  · rw [lookupA_discard_prune_other m k cid he] at h
    exact ⟨s0, h, Or.inl rfl⟩

theorem lookup_discard_prune_pos {κ : Type} [DecidableEq κ]
    {m : List (κ × Finset ConnId)} {k0 : κ} {cid x : ConnId} {s : Finset ConnId}
    (k : κ) (h : lookupA m k0 = some s) (hx : x ∈ s) (hne : x ≠ cid) :
    ∃ s0, lookupA (discard_prune m k cid) k0 = some s0 ∧ x ∈ s0 := by
  by_cases he : k = k0
  · subst he
    have hxe : x ∈ s.erase cid := Finset.mem_erase.mpr ⟨hne, hx⟩
    have hs : ¬ s.erase cid = ∅ := by
      intro h0
      rw [h0] at hxe
      exact absurd hxe (Finset.not_mem_empty x)
    rw [lookupA_discard_prune_self cid h]
    exact ⟨s.erase cid, by simp [hs], hxe⟩
  · rw [lookupA_discard_prune_other m k cid he]
    exact ⟨s, h, hx⟩

theorem prune_all_cons (m : List (TaskId × Finset ConnId)) (t : TaskId)
    (ts : List TaskId) (cid : ConnId) :
    prune_all m (t :: ts) cid = prune_all (discard_prune m t cid) ts cid := rfl

theorem nodup_keys_prune_all {m : List (TaskId × Finset ConnId)}
    (hnd : (m.map Prod.fst).Nodup) (ts : List TaskId) (cid : ConnId) :
    ((prune_all m ts cid).map Prod.fst).Nodup := by
  induction ts generalizing m with
  | nil => exact hnd
  | cons t rest ih =>
      rw [prune_all_cons]
      exact ih (nodup_keys_discard_prune hnd t cid)

theorem lookupA_prune_all_notmem {m : List (TaskId × Finset ConnId)}
    {ts : List TaskId} {cid : ConnId} {t0 : TaskId} (h : t0 ∉ ts) :
    lookupA (prune_all m ts cid) t0 = lookupA m t0 := by
  induction ts generalizing m with
  | nil => rfl
  | cons t rest ih =>
      rw [prune_all_cons]
      have h1 : t0 ∉ rest := fun hm => h (List.mem_cons_of_mem _ hm)
      have h2 : ¬ t = t0 := fun he => h (by rw [he] ; exact List.mem_cons_self _ _)
      rw [ih h1, lookupA_discard_prune_other m t cid h2]

theorem lookup_prune_all_some {m : List (TaskId × Finset ConnId)}
    {ts : List TaskId} {cid : ConnId} {t0 : TaskId} {s0 : Finset ConnId}
    (h : lookupA (prune_all m ts cid) t0 = some s0) :
    ∃ s1, lookupA m t0 = some s1 ∧
      (s0 = s1 ∨ (s0 = s1.erase cid ∧ s0 ≠ ∅)) := by
  induction ts generalizing m with
  | nil => exact ⟨s0, h, Or.inl rfl⟩
  | cons t rest ih =>
      rw [prune_all_cons] at h
      obtain ⟨s1, h1, hc1⟩ := ih h
      obtain ⟨s2, h2, hc2⟩ := lookup_discard_prune_some h1
      refine ⟨s2, h2, ?_⟩
      rcases hc1 with he1 | ⟨he1, hne1⟩
      · rcases hc2 with he2 | ⟨he2, hne2⟩
        · exact Or.inl (he1.trans he2)
        · exact Or.inr ⟨he1.trans he2, he1 ▸ hne2⟩
      · rcases hc2 with he2 | ⟨he2, hne2⟩
        · exact Or.inr ⟨he1.trans (by rw [he2]), hne1⟩
        · refine Or.inr ⟨?_, hne1⟩
          rw [he1, he2, Finset.erase_idem]

theorem lookup_prune_all_pos {m : List (TaskId × Finset ConnId)}
    {cid x : ConnId} {t0 : TaskId} {s : Finset ConnId} (ts : List TaskId)
    (h : lookupA m t0 = some s) (hx : x ∈ s) (hne : x ≠ cid) :
    ∃ s0, lookupA (prune_all m ts cid) t0 = some s0 ∧ x ∈ s0 := by
  induction ts generalizing m s with
  | nil => exact ⟨s, h, hx⟩
  | cons t rest ih =>
      rw [prune_all_cons]
      obtain ⟨s1, h1, hx1⟩ := lookup_discard_prune_pos t h hx hne
      exact ih h1 hx1

theorem lookup_prune_all_mem_notin {m : List (TaskId × Finset ConnId)}
    {ts : List TaskId} {cid : ConnId} {t0 : TaskId} {s0 : Finset ConnId}
    (hmem : t0 ∈ ts) (h : lookupA (prune_all m ts cid) t0 = some s0) :
    cid ∉ s0 := by
  induction ts generalizing m with
  | nil => simp at hmem
  | cons t rest ih =>
      rw [prune_all_cons] at h
      by_cases hr : t0 ∈ rest
      · exact ih hr h
      · have he : t0 = t := by
          rcases List.mem_cons.mp hmem with h1 | h1
          · exact h1
          · exact absurd h1 hr
        subst he
        rw [lookupA_prune_all_notmem hr] at h
        cases h1 : lookupA m t0 with
        | none => rw [discard_prune_of_none cid h1, h1] at h ; exact Option.noConfusion h
        | some s1 =>
            rw [lookupA_discard_prune_self cid h1] at h
            by_cases hs : s1.erase cid = ∅
            · simp [hs] at h
            · simp [hs] at h
              rw [← h]
              exact Finset.not_mem_erase cid s1

/-! Lemmas about the send phase. -/

theorem mark_inactive_lookup (st : WebSocketManager) (x : ConnId)
    (conn : WebSocketConnection) (cid : ConnId) :
    lookupA (mark_inactive st x conn).connections cid =
      if x = cid then some ({ conn with is_active := false })
      else lookupA st.connections cid := by
  unfold mark_inactive
  exact lookupA_insertA st.connections x cid _

theorem mark_inactive_keys {st : WebSocketManager} {x : ConnId} {c0 : WebSocketConnection}
    (hx : lookupA st.connections x = some c0) (conn : WebSocketConnection) :
    (mark_inactive st x conn).connections.map Prod.fst =
      st.connections.map Prod.fst := by
  unfold mark_inactive
  exact keys_insertA_of_lookup hx _

theorem send_loop_nil (ok : ConnId → Bool) (st : WebSocketManager) :
    send_loop ok st [] = (st, [], []) := rfl

theorem send_loop_cons_none {st : WebSocketManager} {x : ConnId}
    (ok : ConnId → Bool) (rest : List ConnId)
    (hx : lookupA st.connections x = none) :
    send_loop ok st (x :: rest) = send_loop ok st rest := by
  simp [send_loop, hx]

theorem send_loop_cons_inactive {st : WebSocketManager} {x : ConnId}
    {conn : WebSocketConnection} (ok : ConnId → Bool) (rest : List ConnId)
    (hx : lookupA st.connections x = some conn)
    (ha : conn.is_active = false) :
    send_loop ok st (x :: rest) = send_loop ok st rest := by
  simp [send_loop, hx, ha]

theorem send_loop_cons_sent {st : WebSocketManager} {x : ConnId}
    {conn : WebSocketConnection} {ok : ConnId → Bool} (rest : List ConnId)
    (hx : lookupA st.connections x = some conn)
    (ha : conn.is_active = true) (hk : ok x = true) :
    send_loop ok st (x :: rest) =
      ((send_loop ok st rest).1, x :: (send_loop ok st rest).2.1,
        (send_loop ok st rest).2.2) := by
  simp [send_loop, hx, ha, hk]

theorem send_loop_cons_failed {st : WebSocketManager} {x : ConnId}
    {conn : WebSocketConnection} {ok : ConnId → Bool} (rest : List ConnId)
    (hx : lookupA st.connections x = some conn)
    (ha : conn.is_active = true) (hk : ok x = false) :
    send_loop ok st (x :: rest) =
      ((send_loop ok (mark_inactive st x conn) rest).1,
        (send_loop ok (mark_inactive st x conn) rest).2.1,
        x :: (send_loop ok (mark_inactive st x conn) rest).2.2) := by
  simp [send_loop, hx, ha, hk]

theorem send_loop_ghost (ok : ConnId → Bool) (order : List ConnId) :
    ∀ st : WebSocketManager,
      (send_loop ok st order).1.user_connections = st.user_connections ∧
      (send_loop ok st order).1.task_subscribers = st.task_subscribers ∧
      (send_loop ok st order).1.close_calls = st.close_calls ∧
      (send_loop ok st order).1.used_ids = st.used_ids := by
  induction order with
  | nil => intro st ; simp [send_loop_nil]
  | cons x rest ih =>
      intro st
      cases hx : lookupA st.connections x with
      | none => rw [send_loop_cons_none ok rest hx] ; exact ih st
      | some conn =>
          cases ha : conn.is_active with
          | false => rw [send_loop_cons_inactive ok rest hx ha] ; exact ih st
          | true =>
              cases hk : ok x with
              | true => rw [send_loop_cons_sent rest hx ha hk] ; exact ih st
              | false =>
                  rw [send_loop_cons_failed rest hx ha hk]
                  have h0 := ih (mark_inactive st x conn)
                  simpa [mark_inactive] using h0

theorem send_loop_keys (ok : ConnId → Bool) (order : List ConnId) :
    ∀ st : WebSocketManager,
      (send_loop ok st order).1.connections.map Prod.fst =
        st.connections.map Prod.fst := by
  induction order with
  | nil => intro st ; simp [send_loop_nil]
  | cons x rest ih =>
      intro st
      cases hx : lookupA st.connections x with
      | none => rw [send_loop_cons_none ok rest hx] ; exact ih st
      | some conn =>
          cases ha : conn.is_active with
          | false => rw [send_loop_cons_inactive ok rest hx ha] ; exact ih st
          | true =>
              cases hk : ok x with
              | true => rw [send_loop_cons_sent rest hx ha hk] ; exact ih st
              | false =>
                  rw [send_loop_cons_failed rest hx ha hk]
                  rw [ih (mark_inactive st x conn)]
                  exact mark_inactive_keys hx conn

theorem send_loop_mem_delivered (ok : ConnId → Bool) (order : List ConnId)
    (cid : ConnId) :
    ∀ st : WebSocketManager, order.Nodup →
      (cid ∈ (send_loop ok st order).2.1 ↔
        cid ∈ order ∧ ∃ c, lookupA st.connections cid = some c ∧
          c.is_active = true ∧ ok cid = true) := by
  induction order with
  | nil => intro st _ ; simp [send_loop_nil]
  | cons x rest ih =>
      intro st hord
      rw [List.nodup_cons] at hord
      cases hx : lookupA st.connections x with
      | none =>
          rw [send_loop_cons_none ok rest hx, ih st hord.2]
          constructor
          · rintro ⟨hm, hc⟩ ; exact ⟨List.mem_cons_of_mem _ hm, hc⟩
          · rintro ⟨hm, c, hc, hac, hok⟩
            rcases List.mem_cons.mp hm with he | h1
            · subst he ; rw [hx] at hc ; exact Option.noConfusion hc
            · exact ⟨h1, c, hc, hac, hok⟩
      | some conn =>
          cases ha : conn.is_active with
          | false =>
              rw [send_loop_cons_inactive ok rest hx ha, ih st hord.2]
              constructor
              · rintro ⟨hm, hc⟩ ; exact ⟨List.mem_cons_of_mem _ hm, hc⟩
              · rintro ⟨hm, c, hc, hac, hok⟩
                rcases List.mem_cons.mp hm with he | h1
                · subst he
                  rw [hx] at hc
                  cases hc
                  rw [ha] at hac
                  exact Bool.noConfusion hac
                · exact ⟨h1, c, hc, hac, hok⟩
          | true =>
              cases hk : ok x with
              | true =>
                  rw [send_loop_cons_sent rest hx ha hk]
                  by_cases he : cid = x
                  · subst he
                    constructor
                    · intro _ ; exact ⟨List.mem_cons_self _ _, conn, hx, ha, hk⟩
                    · intro _ ; exact List.mem_cons_self _ _
                  · constructor
                    · intro hm
                      rcases List.mem_cons.mp hm with h1 | h1
                      · exact absurd h1 he
                      · obtain ⟨h2, hc⟩ := (ih st hord.2).mp h1
                        exact ⟨List.mem_cons_of_mem _ h2, hc⟩
                    · rintro ⟨hm, hc⟩
                      rcases List.mem_cons.mp hm with h1 | h1
                      · exact absurd h1 he
                      · exact List.mem_cons_of_mem _ ((ih st hord.2).mpr ⟨h1, hc⟩)
              | false =>
                  rw [send_loop_cons_failed rest hx ha hk]
                  by_cases he : cid = x
                  · subst he
                    rw [ih (mark_inactive st cid conn) hord.2]
                    constructor
                    · rintro ⟨hm, _⟩ ; exact absurd hm hord.1
                    · rintro ⟨_, c, hc, _, hok⟩
                      rw [hx] at hc
                      cases hc
                      rw [hk] at hok
                      exact Bool.noConfusion hok
                  · rw [ih (mark_inactive st x conn) hord.2]
                    have hxne : ¬ x = cid := fun h0 => he h0.symm
                    have hlk : lookupA (mark_inactive st x conn).connections cid =
                        lookupA st.connections cid := by
                      rw [mark_inactive_lookup]
                      simp [hxne]
                    rw [hlk]
                    constructor
                    · rintro ⟨hm, hc⟩ ; exact ⟨List.mem_cons_of_mem _ hm, hc⟩
                    · rintro ⟨hm, hc⟩
                      rcases List.mem_cons.mp hm with h1 | h1
                      · exact absurd h1 he
                      · exact ⟨h1, hc⟩

theorem send_loop_mem_failed (ok : ConnId → Bool) (order : List ConnId)
    (cid : ConnId) :
    ∀ st : WebSocketManager, order.Nodup →
      (cid ∈ (send_loop ok st order).2.2 ↔
        cid ∈ order ∧ ∃ c, lookupA st.connections cid = some c ∧
          c.is_active = true ∧ ok cid = false) := by
  induction order with
  | nil => intro st _ ; simp [send_loop_nil]
  | cons x rest ih =>
      intro st hord
      rw [List.nodup_cons] at hord
      cases hx : lookupA st.connections x with
      | none =>
          rw [send_loop_cons_none ok rest hx, ih st hord.2]
          constructor
          · rintro ⟨hm, hc⟩ ; exact ⟨List.mem_cons_of_mem _ hm, hc⟩
          · rintro ⟨hm, c, hc, hac, hok⟩
            rcases List.mem_cons.mp hm with he | h1
            · subst he ; rw [hx] at hc ; exact Option.noConfusion hc
            · exact ⟨h1, c, hc, hac, hok⟩
      | some conn =>
          cases ha : conn.is_active with
          | false =>
              rw [send_loop_cons_inactive ok rest hx ha, ih st hord.2]
              constructor
              · rintro ⟨hm, hc⟩ ; exact ⟨List.mem_cons_of_mem _ hm, hc⟩
              · rintro ⟨hm, c, hc, hac, hok⟩
                rcases List.mem_cons.mp hm with he | h1
                · subst he
                  rw [hx] at hc
                  cases hc
                  rw [ha] at hac
                  exact Bool.noConfusion hac
                · exact ⟨h1, c, hc, hac, hok⟩
          | true =>
              cases hk : ok x with
              | true =>
                  rw [send_loop_cons_sent rest hx ha hk, ih st hord.2]
                  by_cases he : cid = x
                  · subst he
                    constructor
                    · rintro ⟨hm, _⟩ ; exact absurd hm hord.1
                    · rintro ⟨_, c, hc, _, hok⟩
                      rw [hx] at hc
                      cases hc
                      rw [hk] at hok
                      exact Bool.noConfusion hok
                  · constructor
                    · rintro ⟨hm, hc⟩ ; exact ⟨List.mem_cons_of_mem _ hm, hc⟩
                    · rintro ⟨hm, hc⟩
                      rcases List.mem_cons.mp hm with h1 | h1
                      · exact absurd h1 he
                      · exact ⟨h1, hc⟩
              | false =>
                  rw [send_loop_cons_failed rest hx ha hk]
                  by_cases he : cid = x
                  · subst he
                    constructor
                    · intro _ ; exact ⟨List.mem_cons_self _ _, conn, hx, ha, hk⟩
                    · intro _ ; exact List.mem_cons_self _ _
                  · constructor
                    · intro hm
                      rcases List.mem_cons.mp hm with h1 | h1
                      · exact absurd h1 he
                      · obtain ⟨h2, hc⟩ := (ih (mark_inactive st x conn) hord.2).mp h1
                        rw [mark_inactive_lookup] at hc
                        have hxne : ¬ x = cid := fun h0 => he h0.symm
                        simp only [if_neg hxne] at hc
                        exact ⟨List.mem_cons_of_mem _ h2, hc⟩
                    · rintro ⟨hm, hc⟩
                      rcases List.mem_cons.mp hm with h1 | h1
                      · exact absurd h1 he
                      · refine List.mem_cons_of_mem _
                          ((ih (mark_inactive st x conn) hord.2).mpr ⟨h1, ?_⟩)
                        rw [mark_inactive_lookup]
                        have hxne : ¬ x = cid := fun h0 => he h0.symm
                        simp only [if_neg hxne]
                        exact hc

theorem send_loop_lookup_preserved (ok : ConnId → Bool) (order : List ConnId)
    (cid : ConnId) :
    ∀ st : WebSocketManager, cid ∉ (send_loop ok st order).2.2 →
      lookupA (send_loop ok st order).1.connections cid =
        lookupA st.connections cid := by
  induction order with
  | nil => intro st _ ; simp [send_loop_nil]
  | cons x rest ih =>
      intro st hnf
      cases hx : lookupA st.connections x with
      | none =>
          rw [send_loop_cons_none ok rest hx] at hnf ⊢
          exact ih st hnf
      | some conn =>
          cases ha : conn.is_active with
          | false =>
              rw [send_loop_cons_inactive ok rest hx ha] at hnf ⊢
              exact ih st hnf
          | true =>
              cases hk : ok x with
              | true =>
                  rw [send_loop_cons_sent rest hx ha hk] at hnf ⊢
                  exact ih st hnf
              | false =>
                  rw [send_loop_cons_failed rest hx ha hk] at hnf ⊢
                  simp only [List.mem_cons] at hnf
                  have hne : cid ≠ x := fun he => hnf (Or.inl he)
                  have hnf2 : cid ∉ (send_loop ok (mark_inactive st x conn) rest).2.2 :=
                    fun hm => hnf (Or.inr hm)
                  rw [ih _ hnf2, mark_inactive_lookup]
                  have hxne : ¬ x = cid := fun h0 => hne h0.symm
                  simp [hxne]

/-! Basic facts about disconnect. -/

theorem disconnect_lookup_self (st : WebSocketManager) (cid : ConnId) :
    lookupA (disconnect st cid).connections cid = none := by
  unfold disconnect
  cases h : lookupA st.connections cid with
  | none => exact h
  | some conn =>
      simp only []
      rw [lookupA_eraseA]
      simp

theorem disconnect_lookup_other (st : WebSocketManager) {cid cid0 : ConnId}
    (hne : cid ≠ cid0) :
    lookupA (disconnect st cid).connections cid0 = lookupA st.connections cid0 := by
  unfold disconnect
  cases h : lookupA st.connections cid with
  | none => rfl
  | some conn =>
      simp only []
      rw [lookupA_eraseA]
      simp [hne]

theorem disconnect_lookup_none (st : WebSocketManager) {cid cid0 : ConnId}
    (h : lookupA st.connections cid0 = none) :
    lookupA (disconnect st cid).connections cid0 = none := by
  by_cases he : cid = cid0
  · subst he ; exact disconnect_lookup_self st cid
  · rw [disconnect_lookup_other st he] ; exact h

theorem foldl_disconnect_lookup_notmem (l : List ConnId) (cid : ConnId) :
    ∀ st : WebSocketManager, cid ∉ l →
      lookupA (l.foldl (fun acc c => disconnect acc c) st).connections cid =
        lookupA st.connections cid := by
  induction l with
  | nil => intro st _ ; rfl
  | cons x rest ih =>
      intro st hn
      have h1 : cid ∉ rest := fun hm => hn (List.mem_cons_of_mem _ hm)
      have h2 : x ≠ cid := fun he => hn (by rw [he] ; exact List.mem_cons_self _ _)
      simp only [List.foldl_cons]
      rw [ih _ h1, disconnect_lookup_other st h2]

theorem foldl_disconnect_lookup_none (l : List ConnId) (cid : ConnId) :
    ∀ st : WebSocketManager, lookupA st.connections cid = none →
      lookupA (l.foldl (fun acc c => disconnect acc c) st).connections cid = none := by
  induction l with
  | nil => intro st h ; exact h
  | cons x rest ih =>
      intro st h
      simp only [List.foldl_cons]
      exact ih _ (disconnect_lookup_none st h)

theorem foldl_disconnect_lookup_mem (l : List ConnId) (cid : ConnId) :
    ∀ st : WebSocketManager, cid ∈ l →
      lookupA (l.foldl (fun acc c => disconnect acc c) st).connections cid = none := by
  induction l with
  | nil => intro st h ; simp at h
  | cons x rest ih =>
      intro st hm
      simp only [List.foldl_cons]
      by_cases he : x = cid
      · subst he
        exact foldl_disconnect_lookup_none rest x _ (disconnect_lookup_self st x)
      · rcases List.mem_cons.mp hm with h1 | h1
        · exact absurd h1.symm he
        · exact ih _ h1

/-! Index-consistency invariant of reachable manager states. -/

theorem lookupA_ne_none_of_mem {κ β : Type} [DecidableEq κ] {m : List (κ × β)}
    {p : κ × β} (hp : p ∈ m) : lookupA m p.1 ≠ none := by
  induction m with
  | nil => simp at hp
  | cons q rest ih =>
      obtain ⟨k1, v1⟩ := q
      by_cases h1 : k1 = p.1
      · simp [lookupA, h1]
      · rcases List.mem_cons.mp hp with he | hm
        · subst he
          simp at h1
        · simp [lookupA, h1]
          exact ih hm

theorem lookupA_none_iff {κ β : Type} [DecidableEq κ] (m : List (κ × β)) (k : κ) :
    lookupA m k = none ↔ k ∉ m.map Prod.fst := by
  constructor
  · intro h hk
    rcases List.mem_map.mp hk with ⟨p, hp, he⟩
    rw [← he] at h
    exact lookupA_ne_none_of_mem hp h
  · intro h
    cases hl : lookupA m k with
    | none => rfl
    | some v => exact absurd (List.mem_map.mpr ⟨(k, v), mem_of_lookupA hl, rfl⟩) h

/-- Invariant tying the registry, the two derived indices and the ghost
    close/id accounting together on every reachable state. -/
structure Inv (st : WebSocketManager) : Prop where
  nd_conn : (st.connections.map Prod.fst).Nodup
  nd_user : (st.user_connections.map Prod.fst).Nodup
  nd_task : (st.task_subscribers.map Prod.fst).Nodup
  user_sets : ∀ u s, lookupA st.user_connections u = some s →
    u ≠ "" ∧ s ≠ ∅ ∧ ∀ cid ∈ s, ∃ c, lookupA st.connections cid = some c ∧
      c.user_id = some u
  task_sets : ∀ t s, lookupA st.task_subscribers t = some s →
    s ≠ ∅ ∧ ∀ cid ∈ s, ∃ c, lookupA st.connections cid = some c ∧
      t ∈ c.subscribed_tasks
  conn_user : ∀ cid c, lookupA st.connections cid = some c →
    ∀ u, c.user_id = some u → u ≠ "" →
      ∃ s, lookupA st.user_connections u = some s ∧ cid ∈ s
  conn_task : ∀ cid c, lookupA st.connections cid = some c →
    ∀ t, t ∈ c.subscribed_tasks →
      ∃ s, lookupA st.task_subscribers t = some s ∧ cid ∈ s
  conn_used : ∀ cid c, lookupA st.connections cid = some c → cid ∈ st.used_ids
  close_used : ∀ cid, cid ∈ st.close_calls → cid ∈ st.used_ids
  close_once : ∀ cid, st.close_calls.count cid ≤ 1
  reg_not_closed : ∀ cid c, lookupA st.connections cid = some c →
    st.close_calls.count cid = 0

theorem inv_empty : Inv WebSocketManager.empty := by
  constructor <;> simp [WebSocketManager.empty, lookupA]

theorem inv_connect {st : WebSocketManager} (hin : Inv st) {cid : ConnId}
    (hfresh : cid ∉ st.used_ids) (uid : Option UserId) (sid : Option String)
    (now : Nat) (ok : Bool) : Inv (connect st cid uid sid now ok) := by
  have hnone : lookupA st.connections cid = none := by
    cases h : lookupA st.connections cid with
    | none => rfl
    | some c => exact absurd (hin.conn_used cid c h) hfresh
  obtain ⟨conn, hconn⟩ : ∃ conn : WebSocketConnection,
      conn = { connection_id := cid
               user_id := uid
               session_id := sid
               connected_at := now
               last_heartbeat := now
               subscribed_tasks := ∅
               is_active := ok } := ⟨_, rfl⟩
  have hmain : (connect st cid uid sid now ok).connections =
      insertA st.connections cid conn := by
    rw [hconn]
    rfl
  have hucs : (connect st cid uid sid now ok).user_connections =
      track_user st.user_connections uid cid := rfl
  have htss : (connect st cid uid sid now ok).task_subscribers =
      st.task_subscribers := rfl
  have hcc : (connect st cid uid sid now ok).close_calls = st.close_calls := rfl
  have huse : (connect st cid uid sid now ok).used_ids =
      insert cid st.used_ids := rfl
  have hconn_uid : conn.user_id = uid := by rw [hconn]
  have hconn_tasks : conn.subscribed_tasks = ∅ := by rw [hconn]
  have hkeep : ∀ x c0, lookupA st.connections x = some c0 →
      lookupA (insertA st.connections cid conn) x = some c0 := by
    intro x c0 hx
    have hne : ¬ cid = x := by
      intro he
      rw [he] at hnone
      rw [hnone] at hx
      exact Option.noConfusion hx
    rw [lookupA_insertA]
    simp [hne, hx]
  have hlook : ∀ x, lookupA (insertA st.connections cid conn) x =
      if cid = x then some conn else lookupA st.connections x :=
    fun x => lookupA_insertA st.connections cid x conn
  constructor
  · rw [hmain, keys_insertA_of_not_lookup hnone]
    refine List.Nodup.append hin.nd_conn (List.nodup_singleton cid) ?_
    intro x hx hx1
    simp at hx1
    subst hx1
    exact (lookupA_none_iff st.connections x).mp hnone hx
  · rw [hucs]
    cases uid with
    | none => exact hin.nd_user
    | some u =>
        simp only [track_user]
        by_cases hu : u = ""
        · simp only [hu, if_true]
          exact hin.nd_user
        · simp only [if_neg hu]
          exact nodup_keys_insertA hin.nd_user u _
  · rw [htss]
    exact hin.nd_task
  · intro u0 s0 hl0
    rw [hucs] at hl0
    have hold : ∀ s1, lookupA st.user_connections u0 = some s1 →
        u0 ≠ "" ∧ s1 ≠ ∅ ∧ ∀ x ∈ s1,
          ∃ c, lookupA (connect st cid uid sid now ok).connections x = some c ∧
            c.user_id = some u0 := by
      intro s1 hs1
      obtain ⟨hne, hs, hmem⟩ := hin.user_sets u0 s1 hs1
      refine ⟨hne, hs, ?_⟩
      intro x hx
      obtain ⟨c, hc, hcu⟩ := hmem x hx
      refine ⟨c, ?_, hcu⟩
      rw [hmain]
      exact hkeep x c hc
    cases uid with
    | none => exact hold s0 hl0
    | some u =>
        simp only [track_user] at hl0
        by_cases hu : u = ""
        · simp only [hu, if_true] at hl0
          exact hold s0 hl0
        · simp only [if_neg hu] at hl0
          rw [lookupA_insertA] at hl0
          by_cases he : u = u0
          · subst he
            rw [if_pos rfl] at hl0
            have hs0 : s0 = insert cid ((lookupA st.user_connections u).getD ∅) :=
              (Option.some.inj hl0).symm
            subst hs0
            refine ⟨hu, Finset.insert_ne_empty _ _, ?_⟩
            intro x hx
            rcases Finset.mem_insert.mp hx with he1 | hx1
            · subst he1
              refine ⟨conn, ?_, by rw [hconn_uid]⟩
              rw [hmain, hlook]
              simp
            · cases hS : lookupA st.user_connections u with
              | none =>
                  rw [hS] at hx1
                  simp at hx1
              | some S0 =>
                  rw [hS] at hx1
                  simp at hx1
                  obtain ⟨_, _, hmem⟩ := hin.user_sets u S0 hS
                  obtain ⟨c, hc, hcu⟩ := hmem x hx1
                  refine ⟨c, ?_, hcu⟩
                  rw [hmain]
                  exact hkeep x c hc
          · rw [if_neg he] at hl0
            exact hold s0 hl0
  · intro t0 s0 hl0
    rw [htss] at hl0
    obtain ⟨hs, hmem⟩ := hin.task_sets t0 s0 hl0
    refine ⟨hs, ?_⟩
    intro x hx
    obtain ⟨c, hc, hct⟩ := hmem x hx
    refine ⟨c, ?_, hct⟩
    rw [hmain]
    exact hkeep x c hc
  · intro cid0 c0 hl0 u0 hu0 hne0
    rw [hmain, hlook] at hl0
    by_cases he : cid = cid0
    · subst he
      rw [if_pos rfl] at hl0
      have hc0 : c0 = conn := (Option.some.inj hl0).symm
      subst hc0
      rw [hconn_uid] at hu0
      rw [hucs, hu0]
      simp only [track_user]
      simp only [if_neg hne0]
      refine ⟨insert cid ((lookupA st.user_connections u0).getD ∅), ?_, ?_⟩
      · rw [lookupA_insertA]
        simp
      · exact Finset.mem_insert_self cid _
    · rw [if_neg he] at hl0
      obtain ⟨s, hs, hmem⟩ := hin.conn_user cid0 c0 hl0 u0 hu0 hne0
      rw [hucs]
      cases uid with
      | none => exact ⟨s, hs, hmem⟩
      | some u =>
          simp only [track_user]
          by_cases hu : u = ""
          · simp only [hu, if_true]
            exact ⟨s, hs, hmem⟩
          · simp only [if_neg hu]
            rw [lookupA_insertA]
            by_cases he1 : u = u0
            · subst he1
              rw [if_pos rfl, hs]
              refine ⟨insert cid s, by simp, Finset.mem_insert_of_mem hmem⟩
            · rw [if_neg he1]
              exact ⟨s, hs, hmem⟩
  · intro cid0 c0 hl0 t0 ht0
    rw [hmain, hlook] at hl0
    by_cases he : cid = cid0
    · subst he
      rw [if_pos rfl] at hl0
      have hc0 : c0 = conn := (Option.some.inj hl0).symm
      subst hc0
      rw [hconn_tasks] at ht0
      simp at ht0
    · rw [if_neg he] at hl0
      obtain ⟨s, hs, hmem⟩ := hin.conn_task cid0 c0 hl0 t0 ht0
      rw [htss]
      exact ⟨s, hs, hmem⟩
  · intro cid0 c0 hl0
    rw [hmain, hlook] at hl0
    rw [huse]
    by_cases he : cid = cid0
    · subst he
      exact Finset.mem_insert_self cid st.used_ids
    · rw [if_neg he] at hl0
      exact Finset.mem_insert_of_mem (hin.conn_used cid0 c0 hl0)
  · intro cid0 hc0
    rw [hcc] at hc0
    rw [huse]
    exact Finset.mem_insert_of_mem (hin.close_used cid0 hc0)
  · intro cid0
    rw [hcc]
    exact hin.close_once cid0
  · intro cid0 c0 hl0
    rw [hmain, hlook] at hl0
    rw [hcc]
    by_cases he : cid = cid0
    · subst he
      refine List.count_eq_zero.mpr ?_
      intro hmem
      exact hfresh (hin.close_used cid hmem)
    · rw [if_neg he] at hl0
      exact hin.reg_not_closed cid0 c0 hl0

theorem inv_touch {st : WebSocketManager} (hin : Inv st) {cid : ConnId}
    {conn conn2 : WebSocketConnection}
    (hl : lookupA st.connections cid = some conn)
    (huid : conn2.user_id = conn.user_id)
    (htasks : conn2.subscribed_tasks = conn.subscribed_tasks) :
    Inv ({ st with connections := insertA st.connections cid conn2 }) := by
  have hlook : ∀ x, lookupA (insertA st.connections cid conn2) x =
      if cid = x then some conn2 else lookupA st.connections x :=
    fun x => lookupA_insertA st.connections cid x conn2
  constructor
  · show ((insertA st.connections cid conn2).map Prod.fst).Nodup
    rw [keys_insertA_of_lookup hl]
    exact hin.nd_conn
  · exact hin.nd_user
  · exact hin.nd_task
  · intro u0 s0 hl0
    obtain ⟨hne, hs, hmem⟩ := hin.user_sets u0 s0 hl0
    refine ⟨hne, hs, ?_⟩
    intro x hx
    obtain ⟨c, hc, hcu⟩ := hmem x hx
    show ∃ c2, lookupA (insertA st.connections cid conn2) x = some c2 ∧
      c2.user_id = some u0
    rw [hlook]
    by_cases he : cid = x
    · subst he
      rw [hl] at hc
      cases hc
      refine ⟨conn2, by rw [if_pos rfl], ?_⟩
      rw [huid]
      exact hcu
    · rw [if_neg he]
      exact ⟨c, hc, hcu⟩
  · intro t0 s0 hl0
    obtain ⟨hs, hmem⟩ := hin.task_sets t0 s0 hl0
    refine ⟨hs, ?_⟩
    intro x hx
    obtain ⟨c, hc, hct⟩ := hmem x hx
    show ∃ c2, lookupA (insertA st.connections cid conn2) x = some c2 ∧
      t0 ∈ c2.subscribed_tasks
    rw [hlook]
    by_cases he : cid = x
    · subst he
      rw [hl] at hc
      cases hc
      refine ⟨conn2, by rw [if_pos rfl], ?_⟩
      rw [htasks]
      exact hct
    · rw [if_neg he]
      exact ⟨c, hc, hct⟩
  · intro cid0 c0 hl0 u0 hu0 hne0
    change lookupA (insertA st.connections cid conn2) _ = some _ at hl0
    rw [hlook] at hl0
    by_cases he : cid = cid0
    · subst he
      rw [if_pos rfl] at hl0
      cases hl0
      rw [huid] at hu0
      exact hin.conn_user cid conn hl u0 hu0 hne0
    · rw [if_neg he] at hl0
      exact hin.conn_user cid0 c0 hl0 u0 hu0 hne0
  · intro cid0 c0 hl0 t0 ht0
    change lookupA (insertA st.connections cid conn2) _ = some _ at hl0
    rw [hlook] at hl0
    by_cases he : cid = cid0
    · subst he
      rw [if_pos rfl] at hl0
      cases hl0
      rw [htasks] at ht0
      exact hin.conn_task cid conn hl t0 ht0
    · rw [if_neg he] at hl0
      exact hin.conn_task cid0 c0 hl0 t0 ht0
  · intro cid0 c0 hl0
    change lookupA (insertA st.connections cid conn2) _ = some _ at hl0
    rw [hlook] at hl0
    by_cases he : cid = cid0
    · subst he
      exact hin.conn_used cid conn hl
    · rw [if_neg he] at hl0
      exact hin.conn_used cid0 c0 hl0
  · exact hin.close_used
  · exact hin.close_once
  · intro cid0 c0 hl0
    change lookupA (insertA st.connections cid conn2) _ = some _ at hl0
    rw [hlook] at hl0
    by_cases he : cid = cid0
    · subst he
      exact hin.reg_not_closed cid conn hl
    · rw [if_neg he] at hl0
      exact hin.reg_not_closed cid0 c0 hl0

theorem inv_subscribe {st : WebSocketManager} (hin : Inv st) (cid : ConnId)
    (tid : TaskId) : Inv (subscribe_task st cid tid) := by
  cases hl : lookupA st.connections cid with
  | none =>
      unfold subscribe_task
      rw [hl]
      exact hin
  | some conn =>
      have hst2 : subscribe_task st cid tid =
          { connections := insertA st.connections cid
              ({ conn with subscribed_tasks := insert tid conn.subscribed_tasks })
            user_connections := st.user_connections
            task_subscribers := insertA st.task_subscribers tid
              (insert cid ((lookupA st.task_subscribers tid).getD ∅))
            close_calls := st.close_calls
            used_ids := st.used_ids } := by
        unfold subscribe_task
        rw [hl]
      rw [hst2]
      have hlookc : ∀ x, lookupA (insertA st.connections cid
          ({ conn with subscribed_tasks := insert tid conn.subscribed_tasks })) x =
          if cid = x then
            some ({ conn with subscribed_tasks := insert tid conn.subscribed_tasks })
          else lookupA st.connections x :=
        fun x => lookupA_insertA st.connections cid x _
      have hlookt : ∀ t, lookupA (insertA st.task_subscribers tid
          (insert cid ((lookupA st.task_subscribers tid).getD ∅))) t =
          if tid = t then
            some (insert cid ((lookupA st.task_subscribers tid).getD ∅))
          else lookupA st.task_subscribers t :=
        fun t => lookupA_insertA st.task_subscribers tid t _
      constructor
      · show ((insertA st.connections cid _).map Prod.fst).Nodup
        rw [keys_insertA_of_lookup hl]
        exact hin.nd_conn
      · exact hin.nd_user
      · exact nodup_keys_insertA hin.nd_task tid _
      · intro u0 s0 hl0
        obtain ⟨hne, hs, hmem⟩ := hin.user_sets u0 s0 hl0
        refine ⟨hne, hs, ?_⟩
        intro x hx
        obtain ⟨c, hc, hcu⟩ := hmem x hx
        show ∃ c2, lookupA (insertA st.connections cid _) x = some c2 ∧
          c2.user_id = some u0
        rw [hlookc]
        by_cases he : cid = x
        · subst he
          rw [hl] at hc
          cases hc
          refine ⟨_, by rw [if_pos rfl], ?_⟩
          exact hcu
        · rw [if_neg he]
          exact ⟨c, hc, hcu⟩
      · intro t0 s0 hl0
        change lookupA (insertA st.task_subscribers tid _) t0 = some s0 at hl0
        rw [hlookt] at hl0
        by_cases ht : tid = t0
        · subst ht
          rw [if_pos rfl] at hl0
          have hs0 : s0 = insert cid ((lookupA st.task_subscribers tid).getD ∅) :=
            (Option.some.inj hl0).symm
          subst hs0
          refine ⟨Finset.insert_ne_empty _ _, ?_⟩
          intro x hx
          show ∃ c2, lookupA (insertA st.connections cid _) x = some c2 ∧
            tid ∈ c2.subscribed_tasks
          rw [hlookc]
          by_cases he : cid = x
          · subst he
            refine ⟨_, by rw [if_pos rfl], ?_⟩
            exact Finset.mem_insert_self tid conn.subscribed_tasks
          · rw [if_neg he]
            rcases Finset.mem_insert.mp hx with he1 | hx1
            · exact absurd he1.symm he
            · cases hS : lookupA st.task_subscribers tid with
              | none =>
                  rw [hS] at hx1
                  simp at hx1
              | some S0 =>
                  rw [hS] at hx1
                  simp at hx1
                  obtain ⟨_, hmem⟩ := hin.task_sets tid S0 hS
                  obtain ⟨c, hc, hct⟩ := hmem x hx1
                  exact ⟨c, hc, hct⟩
        · rw [if_neg ht] at hl0
          obtain ⟨hs, hmem⟩ := hin.task_sets t0 s0 hl0
          refine ⟨hs, ?_⟩
          intro x hx
          obtain ⟨c, hc, hct⟩ := hmem x hx
          show ∃ c2, lookupA (insertA st.connections cid _) x = some c2 ∧
            t0 ∈ c2.subscribed_tasks
          rw [hlookc]
          by_cases he : cid = x
          · subst he
            rw [hl] at hc
            cases hc
            refine ⟨_, by rw [if_pos rfl], ?_⟩
            exact Finset.mem_insert_of_mem hct
          · rw [if_neg he]
            exact ⟨c, hc, hct⟩
      · intro cid0 c0 hl0 u0 hu0 hne0
        change lookupA (insertA st.connections cid _) cid0 = some c0 at hl0
        rw [hlookc] at hl0
        by_cases he : cid = cid0
        · subst he
          rw [if_pos rfl] at hl0
          cases hl0
          exact hin.conn_user cid conn hl u0 hu0 hne0
        · rw [if_neg he] at hl0
          exact hin.conn_user cid0 c0 hl0 u0 hu0 hne0
      · intro cid0 c0 hl0 t0 ht0
        change lookupA (insertA st.connections cid _) cid0 = some c0 at hl0
        rw [hlookc] at hl0
        show ∃ s, lookupA (insertA st.task_subscribers tid _) t0 = some s ∧ cid0 ∈ s
        by_cases he : cid = cid0
        · subst he
          rw [if_pos rfl] at hl0
          cases hl0
          by_cases ht : tid = t0
          · subst ht
            rw [hlookt, if_pos rfl]
            exact ⟨_, rfl, Finset.mem_insert_self cid _⟩
          · rcases Finset.mem_insert.mp ht0 with he1 | ht1
            · exact absurd he1.symm ht
            · obtain ⟨s, hs, hmem⟩ := hin.conn_task cid conn hl t0 ht1
              rw [hlookt, if_neg ht]
              exact ⟨s, hs, hmem⟩
        · rw [if_neg he] at hl0
          obtain ⟨s, hs, hmem⟩ := hin.conn_task cid0 c0 hl0 t0 ht0
          by_cases ht : tid = t0
          · subst ht
            rw [hlookt, if_pos rfl, hs]
            refine ⟨_, rfl, ?_⟩
            simp only [Option.getD_some]
            exact Finset.mem_insert_of_mem hmem
          · rw [hlookt, if_neg ht]
            exact ⟨s, hs, hmem⟩
      · intro cid0 c0 hl0
        change lookupA (insertA st.connections cid _) cid0 = some c0 at hl0
        rw [hlookc] at hl0
        by_cases he : cid = cid0
        · subst he
          exact hin.conn_used cid conn hl
        · rw [if_neg he] at hl0
          exact hin.conn_used cid0 c0 hl0
      · exact hin.close_used
      · exact hin.close_once
      · intro cid0 c0 hl0
        change lookupA (insertA st.connections cid _) cid0 = some c0 at hl0
        rw [hlookc] at hl0
        by_cases he : cid = cid0
        · subst he
          exact hin.reg_not_closed cid conn hl
        · rw [if_neg he] at hl0
          exact hin.reg_not_closed cid0 c0 hl0

theorem inv_unsubscribe {st : WebSocketManager} (hin : Inv st) (cid : ConnId)
    (tid : TaskId) : Inv (unsubscribe_task st cid tid) := by
  cases hl : lookupA st.connections cid with
  | none =>
      unfold unsubscribe_task
      rw [hl]
      exact hin
  | some conn =>
      have hst2 : unsubscribe_task st cid tid =
          { connections := insertA st.connections cid
              ({ conn with subscribed_tasks := conn.subscribed_tasks.erase tid })
            user_connections := st.user_connections
            task_subscribers := discard_prune st.task_subscribers tid cid
            close_calls := st.close_calls
            used_ids := st.used_ids } := by
        unfold unsubscribe_task
        rw [hl]
      rw [hst2]
      have hlookc : ∀ x, lookupA (insertA st.connections cid
          ({ conn with subscribed_tasks := conn.subscribed_tasks.erase tid })) x =
          if cid = x then
            some ({ conn with subscribed_tasks := conn.subscribed_tasks.erase tid })
          else lookupA st.connections x :=
        fun x => lookupA_insertA st.connections cid x _
      constructor
      · show ((insertA st.connections cid _).map Prod.fst).Nodup
        rw [keys_insertA_of_lookup hl]
        exact hin.nd_conn
      · exact hin.nd_user
      · exact nodup_keys_discard_prune hin.nd_task tid cid
      · intro u0 s0 hl0
        obtain ⟨hne, hs, hmem⟩ := hin.user_sets u0 s0 hl0
        refine ⟨hne, hs, ?_⟩
        intro x hx
        obtain ⟨c, hc, hcu⟩ := hmem x hx
        show ∃ c2, lookupA (insertA st.connections cid _) x = some c2 ∧
          c2.user_id = some u0
        rw [hlookc]
        by_cases he : cid = x
        · subst he
          rw [hl] at hc
          cases hc
          refine ⟨_, by rw [if_pos rfl], ?_⟩
          exact hcu
        · rw [if_neg he]
          exact ⟨c, hc, hcu⟩
      · intro t0 s0 hl0
        change lookupA (discard_prune st.task_subscribers tid cid) t0 = some s0 at hl0
        by_cases ht : tid = t0
        · subst ht
          cases h1 : lookupA st.task_subscribers tid with
          | none =>
              rw [discard_prune_of_none cid h1, h1] at hl0
              exact Option.noConfusion hl0
          | some s1 =>
              rw [lookupA_discard_prune_self cid h1] at hl0
              by_cases hs : s1.erase cid = ∅
              · rw [if_pos hs] at hl0
                exact Option.noConfusion hl0
              · rw [if_neg hs] at hl0
                have hs0 : s0 = s1.erase cid := (Option.some.inj hl0).symm
                subst hs0
                refine ⟨hs, ?_⟩
                intro x hx
                obtain ⟨hxne, hx1⟩ := Finset.mem_erase.mp hx
                obtain ⟨_, hmem⟩ := hin.task_sets tid s1 h1
                obtain ⟨c, hc, hct⟩ := hmem x hx1
                show ∃ c2, lookupA (insertA st.connections cid _) x = some c2 ∧
                  tid ∈ c2.subscribed_tasks
                rw [hlookc]
                have hne : ¬ cid = x := fun he => hxne (he.symm)
                rw [if_neg hne]
                exact ⟨c, hc, hct⟩
        · rw [lookupA_discard_prune_other st.task_subscribers tid cid ht] at hl0
          obtain ⟨hs, hmem⟩ := hin.task_sets t0 s0 hl0
          refine ⟨hs, ?_⟩
          intro x hx
          obtain ⟨c, hc, hct⟩ := hmem x hx
          show ∃ c2, lookupA (insertA st.connections cid _) x = some c2 ∧
            t0 ∈ c2.subscribed_tasks
          rw [hlookc]
          by_cases he : cid = x
          · subst he
            rw [hl] at hc
            cases hc
            refine ⟨_, by rw [if_pos rfl], ?_⟩
            show t0 ∈ conn.subscribed_tasks.erase tid
            exact Finset.mem_erase.mpr ⟨fun h0 => ht h0.symm, hct⟩
          · rw [if_neg he]
            exact ⟨c, hc, hct⟩
      · intro cid0 c0 hl0 u0 hu0 hne0
        change lookupA (insertA st.connections cid _) cid0 = some c0 at hl0
        rw [hlookc] at hl0
        by_cases he : cid = cid0
        · subst he
          rw [if_pos rfl] at hl0
          cases hl0
          exact hin.conn_user cid conn hl u0 hu0 hne0
        · rw [if_neg he] at hl0
          exact hin.conn_user cid0 c0 hl0 u0 hu0 hne0
      · intro cid0 c0 hl0 t0 ht0
        change lookupA (insertA st.connections cid _) cid0 = some c0 at hl0
        rw [hlookc] at hl0
        show ∃ s, lookupA (discard_prune st.task_subscribers tid cid) t0 = some s ∧
          cid0 ∈ s
        by_cases he : cid = cid0
        · subst he
          rw [if_pos rfl] at hl0
          cases hl0
          have ht1 : t0 ∈ conn.subscribed_tasks.erase tid := ht0
          obtain ⟨htne, ht2⟩ := Finset.mem_erase.mp ht1
          obtain ⟨s, hs, hmem⟩ := hin.conn_task cid conn hl t0 ht2
          rw [lookupA_discard_prune_other st.task_subscribers tid cid
            (fun h0 => htne h0.symm)]
          exact ⟨s, hs, hmem⟩
        · rw [if_neg he] at hl0
          obtain ⟨s, hs, hmem⟩ := hin.conn_task cid0 c0 hl0 t0 ht0
          exact lookup_discard_prune_pos tid hs hmem (fun h0 => he (h0.symm))
      · intro cid0 c0 hl0
        change lookupA (insertA st.connections cid _) cid0 = some c0 at hl0
        rw [hlookc] at hl0
        by_cases he : cid = cid0
        · subst he
          exact hin.conn_used cid conn hl
        · rw [if_neg he] at hl0
          exact hin.conn_used cid0 c0 hl0
      · exact hin.close_used
      · exact hin.close_once
      · intro cid0 c0 hl0
        change lookupA (insertA st.connections cid _) cid0 = some c0 at hl0
        rw [hlookc] at hl0
        by_cases he : cid = cid0
        · subst he
          exact hin.reg_not_closed cid conn hl
        · rw [if_neg he] at hl0
          exact hin.reg_not_closed cid0 c0 hl0

theorem inv_disconnect {st : WebSocketManager} (hin : Inv st) (cid : ConnId) :
    Inv (disconnect st cid) := by
  cases hl : lookupA st.connections cid with
  | none =>
      unfold disconnect
      rw [hl]
      exact hin
  | some conn =>
      have hst2 : disconnect st cid =
          { connections := eraseA st.connections cid
            user_connections := untrack_user st.user_connections conn.user_id cid
            task_subscribers := prune_all st.task_subscribers
              (conn.subscribed_tasks.sort (· ≤ ·)) cid
            close_calls :=
              if conn.is_active then st.close_calls ++ [cid] else st.close_calls
            used_ids := st.used_ids } := by
        unfold disconnect
        rw [hl]
      rw [hst2]
      have hlooke : ∀ x, lookupA (eraseA st.connections cid) x =
          if cid = x then none else lookupA st.connections x :=
        fun x => lookupA_eraseA st.connections cid x
      have hdet : ∀ c0, lookupA st.connections cid = some c0 → c0 = conn := by
        intro c0 h0
        rw [hl] at h0
        exact (Option.some.inj h0).symm
      have hkeep : ∀ x c0, x ≠ cid → lookupA st.connections x = some c0 →
          lookupA (eraseA st.connections cid) x = some c0 := by
        intro x c0 hne h0
        rw [hlooke, if_neg (fun h1 => hne h1.symm)]
        exact h0
      constructor
      · exact nodup_keys_eraseA hin.nd_conn cid
      · show ((untrack_user st.user_connections conn.user_id cid).map Prod.fst).Nodup
        cases huid : conn.user_id with
        | none => exact hin.nd_user
        | some u =>
            simp only [untrack_user]
            by_cases hu : u = ""
            · rw [if_pos hu]
              exact hin.nd_user
            · rw [if_neg hu]
              exact nodup_keys_discard_prune hin.nd_user u cid
      · exact nodup_keys_prune_all hin.nd_task _ cid
      · intro u0 s0 hl0
        change lookupA (untrack_user st.user_connections conn.user_id cid) u0 =
          some s0 at hl0
        have hold : lookupA st.user_connections u0 = some s0 →
            (∀ x ∈ s0, x = cid → False) →
            u0 ≠ "" ∧ s0 ≠ ∅ ∧ ∀ x ∈ s0,
              ∃ c, lookupA (eraseA st.connections cid) x = some c ∧
                c.user_id = some u0 := by
          intro h0 hnc
          obtain ⟨hne, hs, hmem⟩ := hin.user_sets u0 s0 h0
          refine ⟨hne, hs, ?_⟩
          intro x hx
          obtain ⟨c, hc, hcu⟩ := hmem x hx
          refine ⟨c, ?_, hcu⟩
          exact hkeep x c (fun h1 => hnc x hx h1) hc
        cases huid : conn.user_id with
        | none =>
            rw [huid] at hl0
            simp only [untrack_user] at hl0
            refine hold hl0 ?_
            intro x hx he
            subst he
            obtain ⟨_, _, hmem⟩ := hin.user_sets u0 s0 hl0
            obtain ⟨c, hc, hcu⟩ := hmem x hx
            have hcc := hdet c hc
            subst hcc
            rw [huid] at hcu
            exact Option.noConfusion hcu
        | some u =>
            rw [huid] at hl0
            simp only [untrack_user] at hl0
            by_cases hu : u = ""
            · rw [if_pos hu] at hl0
              refine hold hl0 ?_
              intro x hx he
              subst he
              obtain ⟨hne0, _, hmem⟩ := hin.user_sets u0 s0 hl0
              obtain ⟨c, hc, hcu⟩ := hmem x hx
              have hcc := hdet c hc
              subst hcc
              rw [huid] at hcu
              have : u = u0 := Option.some.inj hcu
              subst this
              subst hu
              exact hne0 rfl
            · rw [if_neg hu] at hl0
              by_cases hu0 : u = u0
              · subst hu0
                cases h1 : lookupA st.user_connections u with
                | none =>
                    rw [discard_prune_of_none cid h1, h1] at hl0
                    exact Option.noConfusion hl0
                | some s1 =>
                    rw [lookupA_discard_prune_self cid h1] at hl0
                    by_cases hs : s1.erase cid = ∅
                    · rw [if_pos hs] at hl0
                      exact Option.noConfusion hl0
                    · rw [if_neg hs] at hl0
                      have hs0 : s0 = s1.erase cid := (Option.some.inj hl0).symm
                      subst hs0
                      obtain ⟨hne1, _, hmem1⟩ := hin.user_sets u s1 h1
                      refine ⟨hne1, hs, ?_⟩
                      intro x hx
                      obtain ⟨hxne, hx1⟩ := Finset.mem_erase.mp hx
                      obtain ⟨c, hc, hcu⟩ := hmem1 x hx1
                      exact ⟨c, hkeep x c hxne hc, hcu⟩
              · rw [lookupA_discard_prune_other st.user_connections u cid hu0] at hl0
                refine hold hl0 ?_
                intro x hx he
                subst he
                obtain ⟨_, _, hmem⟩ := hin.user_sets u0 s0 hl0
                obtain ⟨c, hc, hcu⟩ := hmem x hx
                have hcc := hdet c hc
                subst hcc
                rw [huid] at hcu
                exact hu0 (Option.some.inj hcu)
      · intro t0 s0 hl0
        change lookupA (prune_all st.task_subscribers
          (conn.subscribed_tasks.sort (· ≤ ·)) cid) t0 = some s0 at hl0
        obtain ⟨s1, h1, hcase⟩ := lookup_prune_all_some hl0
        obtain ⟨hs1, hmem1⟩ := hin.task_sets t0 s1 h1
        have hsub : ∀ x ∈ s0, x ∈ s1 := by
          intro x hx
          rcases hcase with he | ⟨he, _⟩
          · rw [he] at hx
            exact hx
          · rw [he] at hx
            exact (Finset.mem_erase.mp hx).2
        have hs0ne : s0 ≠ ∅ := by
          rcases hcase with he | ⟨_, hne⟩
          · rw [he]
            exact hs1
          · exact hne
        refine ⟨hs0ne, ?_⟩
        intro x hx
        obtain ⟨c, hc, hct⟩ := hmem1 x (hsub x hx)
        have hxne : x ≠ cid := by
          intro he
          subst he
          have hmemt : t0 ∈ conn.subscribed_tasks.sort (· ≤ ·) := by
            rw [Finset.mem_sort, ← hdet c hc]
            exact hct
          exact lookup_prune_all_mem_notin hmemt hl0 hx
        exact ⟨c, hkeep x c hxne hc, hct⟩
      · intro cid0 c0 hl0 u0 hu0 hne0
        change lookupA (eraseA st.connections cid) cid0 = some c0 at hl0
        rw [hlooke] at hl0
        by_cases he : cid = cid0
        · rw [if_pos he] at hl0
          exact Option.noConfusion hl0
        · rw [if_neg he] at hl0
          obtain ⟨s, hs, hmem⟩ := hin.conn_user cid0 c0 hl0 u0 hu0 hne0
          show ∃ s2, lookupA (untrack_user st.user_connections conn.user_id cid) u0 =
            some s2 ∧ cid0 ∈ s2
          cases huid : conn.user_id with
          | none => exact ⟨s, hs, hmem⟩
          | some u =>
              simp only [untrack_user]
              by_cases hu : u = ""
              · rw [if_pos hu]
                exact ⟨s, hs, hmem⟩
              · rw [if_neg hu]
                exact lookup_discard_prune_pos u hs hmem (fun h1 => he h1.symm)
      · intro cid0 c0 hl0 t0 ht0
        change lookupA (eraseA st.connections cid) cid0 = some c0 at hl0
        rw [hlooke] at hl0
        by_cases he : cid = cid0
        · rw [if_pos he] at hl0
          exact Option.noConfusion hl0
        · rw [if_neg he] at hl0
          obtain ⟨s, hs, hmem⟩ := hin.conn_task cid0 c0 hl0 t0 ht0
          exact lookup_prune_all_pos _ hs hmem (fun h1 => he h1.symm)
      · intro cid0 c0 hl0
        change lookupA (eraseA st.connections cid) cid0 = some c0 at hl0
        rw [hlooke] at hl0
        by_cases he : cid = cid0
        · rw [if_pos he] at hl0
          exact Option.noConfusion hl0
        · rw [if_neg he] at hl0
          exact hin.conn_used cid0 c0 hl0
      · intro cid0 hc0
        change cid0 ∈ (if conn.is_active then st.close_calls ++ [cid]
          else st.close_calls) at hc0
        by_cases ha : conn.is_active
        · rw [if_pos ha] at hc0
          rcases List.mem_append.mp hc0 with h1 | h1
          · exact hin.close_used cid0 h1
          · simp at h1
            subst h1
            exact hin.conn_used cid0 conn hl
        · rw [if_neg ha] at hc0
          exact hin.close_used cid0 hc0
      · intro cid0
        show (if conn.is_active then st.close_calls ++ [cid]
          else st.close_calls).count cid0 ≤ 1
        by_cases ha : conn.is_active
        · rw [if_pos ha, List.count_append]
          by_cases he : cid0 = cid
          · subst he
            rw [hin.reg_not_closed cid0 conn hl]
            simp [List.count_cons]
          · have h2 : List.count cid0 [cid] = 0 := by
              simp [List.count_cons, he]
            rw [h2]
            simpa using hin.close_once cid0
        · rw [if_neg ha]
          exact hin.close_once cid0
      · intro cid0 c0 hl0
        change lookupA (eraseA st.connections cid) cid0 = some c0 at hl0
        rw [hlooke] at hl0
        by_cases he : cid = cid0
        · rw [if_pos he] at hl0
          exact Option.noConfusion hl0
        · rw [if_neg he] at hl0
          show (if conn.is_active then st.close_calls ++ [cid]
            else st.close_calls).count cid0 = 0
          by_cases ha : conn.is_active
          · rw [if_pos ha, List.count_append]
            have h2 : List.count cid0 [cid] = 0 := by
              rw [List.count_eq_zero]
              intro hmem
              simp at hmem
              exact he hmem.symm
            rw [hin.reg_not_closed cid0 c0 hl0, h2]
          · rw [if_neg ha]
            exact hin.reg_not_closed cid0 c0 hl0

theorem inv_send_loop (ok : ConnId → Bool) (order : List ConnId) :
    ∀ st : WebSocketManager, Inv st → Inv (send_loop ok st order).1 := by
  induction order with
  | nil => intro st hin ; exact hin
  | cons x rest ih =>
      intro st hin
      cases hx : lookupA st.connections x with
      | none =>
          rw [send_loop_cons_none ok rest hx]
          exact ih st hin
      | some conn =>
          cases ha : conn.is_active with
          | false =>
              rw [send_loop_cons_inactive ok rest hx ha]
              exact ih st hin
          | true =>
              cases hk : ok x with
              | true =>
                  rw [send_loop_cons_sent rest hx ha hk]
                  exact ih st hin
              | false =>
                  rw [send_loop_cons_failed rest hx ha hk]
                  exact ih _ (inv_touch hin hx rfl rfl)

theorem inv_foldl_disconnect (l : List ConnId) :
    ∀ st : WebSocketManager, Inv st →
      Inv (l.foldl (fun acc c => disconnect acc c) st) := by
  induction l with
  | nil => intro st hin ; exact hin
  | cons x rest ih =>
      intro st hin
      simp only [List.foldl_cons]
      exact ih _ (inv_disconnect hin x)

theorem inv_broadcast {st : WebSocketManager} (hin : Inv st)
    (ok : ConnId → Bool) (ev : WebSocketEvent) :
    Inv (broadcast_event ok st ev).1 := by
  unfold broadcast_event
  by_cases hc : st.connections = []
  · rw [if_pos hc]
    exact hin
  · rw [if_neg hc]
    exact inv_foldl_disconnect _ _ (inv_send_loop ok _ st hin)

theorem inv_send_to_user {st : WebSocketManager} (hin : Inv st)
    (ok : ConnId → Bool) (u : UserId) (ev : WebSocketEvent) :
    Inv (send_to_user ok st u ev).1 := by
  unfold send_to_user
  cases hu : lookupA st.user_connections u with
  | none => exact hin
  | some s => exact inv_foldl_disconnect _ _ (inv_send_loop ok _ st hin)

theorem inv_send_to_task {st : WebSocketManager} (hin : Inv st)
    (ok : ConnId → Bool) (t : TaskId) (ev : WebSocketEvent) :
    Inv (send_to_task_subscribers ok st t ev).1 := by
  unfold send_to_task_subscribers
  cases ht : lookupA st.task_subscribers t with
  | none => exact hin
  | some s => exact inv_foldl_disconnect _ _ (inv_send_loop ok _ st hin)

theorem inv_heartbeat_iteration {st : WebSocketManager} (hin : Inv st)
    (ok : ConnId → Bool) (now : Nat) :
    Inv (heartbeat_iteration ok st now).1 := by
  unfold heartbeat_iteration
  by_cases hc : st.connections = []
  · rw [if_pos hc]
    exact hin
  · rw [if_neg hc]
    exact inv_broadcast hin ok _

theorem inv_handle_subscribe {st : WebSocketManager} (hin : Inv st)
    (up : String → Option TaskId) (cid : ConnId) (msg : RawMessage) :
    Inv (handle_subscribe_task up st cid msg).1 := by
  unfold handle_subscribe_task
  split
  · exact hin
  · split
    · exact hin
    · split
      · exact hin
      · exact inv_subscribe hin cid _

theorem inv_handle_unsubscribe {st : WebSocketManager} (hin : Inv st)
    (up : String → Option TaskId) (cid : ConnId) (msg : RawMessage) :
    Inv (handle_unsubscribe_task up st cid msg).1 := by
  unfold handle_unsubscribe_task
  split
  · exact hin
  · split
    · exact hin
    · split
      · exact hin
      · exact inv_unsubscribe hin cid _

theorem inv_dispatch {st : WebSocketManager} (hin : Inv st)
    (up : String → Option TaskId) (cid : ConnId) (conn1 : WebSocketConnection)
    (msg : RawMessage) (now : Nat) (ty : String)
    (hl1 : lookupA st.connections cid = some conn1) :
    Inv (dispatch_message up st cid conn1 msg now ty).1 := by
  unfold dispatch_message
  by_cases h1 : ty = "subscribe_task"
  · rw [if_pos h1]
    exact inv_handle_subscribe hin up cid msg
  · rw [if_neg h1]
    by_cases h2 : ty = "unsubscribe_task"
    · rw [if_pos h2]
      exact inv_handle_unsubscribe hin up cid msg
    · rw [if_neg h2]
      by_cases h3 : ty = "heartbeat"
      · rw [if_pos h3]
        exact inv_touch hin hl1 rfl rfl
      · rw [if_neg h3]
        by_cases h4 : ty = "get_status"
        · rw [if_pos h4]
          exact hin
        · rw [if_neg h4]
          exact hin

theorem inv_handle_message {st : WebSocketManager} (hin : Inv st)
    (up : String → Option TaskId) (cid : ConnId) (msg : RawMessage) (now : Nat) :
    Inv (handle_message up st cid msg now).1 := by
  unfold handle_message
  cases hl : lookupA st.connections cid with
  | none => exact hin
  | some conn =>
      cases hty : msg.type with
      | none => exact hin
      | some ty =>
          have hst1 :=
            @inv_touch st hin cid conn ({ conn with last_heartbeat := now })
              hl rfl rfl
          have hl2 : lookupA (insertA st.connections cid
              ({ conn with last_heartbeat := now })) cid =
              some ({ conn with last_heartbeat := now }) := by
            rw [lookupA_insertA]
            exact if_pos rfl
          exact inv_dispatch hst1 up cid _ msg now ty hl2

/-- Every reachable manager state satisfies the index-consistency and
    close-accounting invariant. -/
theorem reached_inv {st : WebSocketManager} (h : Reached st) : Inv st := by
  induction h with
  | initial => exact inv_empty
  | step_connect st cid uid sid now ok _ hfresh ih => exact inv_connect ih hfresh uid sid now ok
  | step_disconnect st cid _ ih => exact inv_disconnect ih cid
  | step_subscribe st cid t _ ih => exact inv_subscribe ih cid t
  | step_unsubscribe st cid t _ ih => exact inv_unsubscribe ih cid t
  | step_message st up cid msg now _ ih => exact inv_handle_message ih up cid msg now
  | step_broadcast st ok ev _ ih => exact inv_broadcast ih ok ev
  | step_to_user st ok u ev _ ih => exact inv_send_to_user ih ok u ev
  | step_to_task st ok t ev _ ih => exact inv_send_to_task ih ok t ev
  | step_heartbeat st ok now _ ih => exact inv_heartbeat_iteration ih ok now

/-! Fan-out characterizations shared by the delivery claims. -/

theorem broadcast_delivered_iff (ok : ConnId → Bool) (st : WebSocketManager)
    (ev : WebSocketEvent) (cid : ConnId)
    (hnd : (st.connections.map Prod.fst).Nodup) :
    cid ∈ (broadcast_event ok st ev).2.1 ↔
      cid ∈ broadcast_targets st ev ∧
        ∃ c, lookupA st.connections cid = some c ∧ c.is_active = true ∧
          ok cid = true := by
  unfold broadcast_event
  by_cases hc : st.connections = []
  · rw [if_pos hc]
    constructor
    · intro h
      simp at h
    · rintro ⟨_, c, hl, _⟩
      rw [hc] at hl
      simp [lookupA] at hl
  · rw [if_neg hc]
    have hord : ((st.connections.map Prod.fst).filter
        (fun c => decide (c ∈ broadcast_targets st ev))).Nodup :=
      hnd.filter _
    rw [send_loop_mem_delivered ok _ cid st hord]
    constructor
    · rintro ⟨hm, hc2⟩
      have := List.of_mem_filter hm
      simp at this
      exact ⟨this, hc2⟩
    · rintro ⟨ht, c, hl, ha, hk⟩
      refine ⟨List.mem_filter.mpr ⟨?_, by simpa using ht⟩, c, hl, ha, hk⟩
      by_contra h0
      have h1 := (lookupA_none_iff st.connections cid).mpr h0
      rw [h1] at hl
      exact Option.noConfusion hl

theorem broadcast_failed_iff (ok : ConnId → Bool) (st : WebSocketManager)
    (ev : WebSocketEvent) (cid : ConnId)
    (hnd : (st.connections.map Prod.fst).Nodup) :
    cid ∈ (broadcast_event ok st ev).2.2 ↔
      cid ∈ broadcast_targets st ev ∧
        ∃ c, lookupA st.connections cid = some c ∧ c.is_active = true ∧
          ok cid = false := by
  unfold broadcast_event
  by_cases hc : st.connections = []
  · rw [if_pos hc]
    constructor
    · intro h
      simp at h
    · rintro ⟨_, c, hl, _⟩
      rw [hc] at hl
      simp [lookupA] at hl
  · rw [if_neg hc]
    have hord : ((st.connections.map Prod.fst).filter
        (fun c => decide (c ∈ broadcast_targets st ev))).Nodup :=
      hnd.filter _
    rw [send_loop_mem_failed ok _ cid st hord]
    constructor
    · rintro ⟨hm, hc2⟩
      have := List.of_mem_filter hm
      simp at this
      exact ⟨this, hc2⟩
    · rintro ⟨ht, c, hl, ha, hk⟩
      refine ⟨List.mem_filter.mpr ⟨?_, by simpa using ht⟩, c, hl, ha, hk⟩
      by_contra h0
      have h1 := (lookupA_none_iff st.connections cid).mpr h0
      rw [h1] at hl
      exact Option.noConfusion hl

theorem broadcast_lookup_preserved (ok : ConnId → Bool) (st : WebSocketManager)
    (ev : WebSocketEvent) (cid : ConnId)
    (hnf : cid ∉ (broadcast_event ok st ev).2.2) :
    lookupA (broadcast_event ok st ev).1.connections cid =
      lookupA st.connections cid := by
  unfold broadcast_event at hnf ⊢
  by_cases hc : st.connections = []
  · rw [if_pos hc]
  · rw [if_neg hc] at hnf ⊢
    rw [foldl_disconnect_lookup_notmem _ cid _ hnf]
    exact send_loop_lookup_preserved ok _ cid st hnf

theorem broadcast_failed_removed (ok : ConnId → Bool) (st : WebSocketManager)
    (ev : WebSocketEvent) (cid : ConnId)
    (hf : cid ∈ (broadcast_event ok st ev).2.2) :
    lookupA (broadcast_event ok st ev).1.connections cid = none := by
  unfold broadcast_event at hf ⊢
  by_cases hc : st.connections = []
  · rw [if_pos hc] at hf
    simp at hf
  · rw [if_neg hc] at hf ⊢
    exact foldl_disconnect_lookup_mem _ cid _ hf

theorem mem_broadcast_targets (st : WebSocketManager) (ev : WebSocketEvent)
    (cid : ConnId) :
    cid ∈ broadcast_targets st ev ↔
      (∃ t, ev.task_id = some t ∧
        ∃ s, lookupA st.task_subscribers t = some s ∧ cid ∈ s) ∨
      (∃ u, ev.user_id = some u ∧ u ≠ "" ∧
        ∃ s, lookupA st.user_connections u = some s ∧ cid ∈ s) ∨
      ((ev.type = WebSocketEventType.system_status ∨
        ev.type = WebSocketEventType.error) ∧
        cid ∈ st.connections.map Prod.fst) := by
  unfold broadcast_targets
  simp only [Finset.mem_union]
  constructor
  · rintro ((h | h) | h)
    · left
      cases hti : ev.task_id with
      | none =>
          rw [hti] at h
          simp at h
      | some t =>
          rw [hti] at h
          have h2 : cid ∈ (lookupA st.task_subscribers t).getD ∅ := h
          cases hts : lookupA st.task_subscribers t with
          | none =>
              rw [hts] at h2
              simp at h2
          | some s =>
              rw [hts] at h2
              simp at h2
              exact ⟨t, rfl, s, hts, h2⟩
    · right ; left
      cases hui : ev.user_id with
      | none =>
          rw [hui] at h
          simp at h
      | some u =>
          rw [hui] at h
          have h2 : cid ∈ (if u = "" then (∅ : Finset ConnId)
              else (lookupA st.user_connections u).getD ∅) := h
          by_cases hu : u = ""
          · rw [if_pos hu] at h2
            simp at h2
          · rw [if_neg hu] at h2
            cases hus : lookupA st.user_connections u with
            | none =>
                rw [hus] at h2
                simp at h2
            | some s =>
                rw [hus] at h2
                simp at h2
                exact ⟨u, rfl, hu, s, hus, h2⟩
    · right ; right
      by_cases hsys : ev.type = WebSocketEventType.system_status ∨
          ev.type = WebSocketEventType.error
      · rw [if_pos hsys] at h
        exact ⟨hsys, List.mem_toFinset.mp h⟩
      · rw [if_neg hsys] at h
        simp at h
  · rintro (⟨t, hti, s, hts, hmem⟩ | ⟨u, hui, hu, s, hus, hmem⟩ | ⟨hsys, hmem⟩)
    · left ; left
      rw [hti]
      show cid ∈ (lookupA st.task_subscribers t).getD ∅
      rw [hts]
      simpa using hmem
    · left ; right
      rw [hui]
      show cid ∈ (if u = "" then (∅ : Finset ConnId)
        else (lookupA st.user_connections u).getD ∅)
      rw [if_neg hu, hus]
      simpa using hmem
    · right
      rw [if_pos hsys]
      exact List.mem_toFinset.mpr hmem

theorem send_phase_skip (ok : ConnId → Bool) (st : WebSocketManager)
    (order : List ConnId) (hord : order.Nodup) (cid : ConnId)
    (hskip : lookupA st.connections cid = none ∨
      ∃ c, lookupA st.connections cid = some c ∧ c.is_active = false) :
    cid ∉ (send_loop ok st order).2.1 ∧ cid ∉ (send_loop ok st order).2.2 ∧
      lookupA ((send_loop ok st order).2.2.foldl (fun acc c => disconnect acc c)
        (send_loop ok st order).1).connections cid = lookupA st.connections cid := by
  have hno : ∀ c, lookupA st.connections cid = some c → c.is_active = true → False := by
    intro c hc ha
    rcases hskip with h0 | ⟨c2, hc2, ha2⟩
    · rw [h0] at hc
      exact Option.noConfusion hc
    · rw [hc2] at hc
      cases hc
      rw [ha2] at ha
      exact Bool.noConfusion ha
  have hnd : cid ∉ (send_loop ok st order).2.1 := by
    intro hm
    obtain ⟨_, c, hc, ha, _⟩ := (send_loop_mem_delivered ok order cid st hord).mp hm
    exact hno c hc ha
  have hnf : cid ∉ (send_loop ok st order).2.2 := by
    intro hm
    obtain ⟨_, c, hc, ha, _⟩ := (send_loop_mem_failed ok order cid st hord).mp hm
    exact hno c hc ha
  refine ⟨hnd, hnf, ?_⟩
  rw [foldl_disconnect_lookup_notmem _ cid _ hnf]
  exact send_loop_lookup_preserved ok order cid st hnf

/-! Concrete example material for witnesses and counterexamples. -/

/-- Task-id parsing used in concrete runs; stands in for UUID parsing. -/
def up0 : String → Option TaskId := fun s => s.toNat?

/-- Oracle under which every transport write succeeds. -/
def ok_all : ConnId → Bool := fun _ => true

/-- Oracle under which every transport write fails. -/
def ok_none : ConnId → Bool := fun _ => false

/-- One connection c1 (no user), registered with a successful greeting. -/
def ex_st1 : WebSocketManager :=
  connect WebSocketManager.empty "c1" none none 0 true

/-- The registry entry created for c1 in ex_st1. -/
def ex_conn1 : WebSocketConnection :=
  { connection_id := "c1"
    user_id := none
    session_id := none
    connected_at := 0
    last_heartbeat := 0
    subscribed_tasks := ∅
    is_active := true }

/-- An event with neither task_id nor user_id whose kind is not in the
    broadcast allow-list. -/
def ex_ev_unscoped : WebSocketEvent :=
  { type := WebSocketEventType.task_progress
    data := []
    timestamp := 0
    task_id := none
    user_id := none
    session_id := none }

/-- A SYSTEM_STATUS event with no scoping fields. -/
def ex_ev_system : WebSocketEvent :=
  { type := WebSocketEventType.system_status
    data := []
    timestamp := 0
    task_id := none
    user_id := none
    session_id := none }

/-- ex_st1 with c1 subscribed to task 42. -/
def ex_st_sub : WebSocketManager := subscribe_task ex_st1 "c1" 42

/-- An event scoped to task 42 only. -/
def ex_ev_task42 : WebSocketEvent :=
  { type := WebSocketEventType.task_updated
    data := []
    timestamp := 0
    task_id := some 42
    user_id := none
    session_id := none }

/-- C2.  The heartbeat loop's broadcast delivers the heartbeat event to
    no connection at all: a heartbeat-loop iteration returns the state
    unchanged with empty delivered and failed lists, for every state and
    every send oracle, because create_heartbeat_event carries no task_id
    and no user_id and HEARTBEAT is not in broadcast_event's
    SYSTEM_STATUS/ERROR allow-list. -/
theorem C2_heartbeat_never_delivered (ok : ConnId → Bool)
    (st : WebSocketManager) (now : Nat) :
    heartbeat_iteration ok st now = (st, [], []) := by
  unfold heartbeat_iteration
  by_cases hc : st.connections = []
  · rw [if_pos hc]
  · rw [if_neg hc]
    unfold broadcast_event
    rw [if_neg hc]
    have htar : broadcast_targets st
        (WebSocketEvent.create_heartbeat_event now none none) = ∅ := by
      unfold broadcast_targets WebSocketEvent.create_heartbeat_event
      simp
    have hord : (st.connections.map Prod.fst).filter
        (fun c => decide (c ∈ (∅ : Finset ConnId))) = [] := by
      simp
    rw [htar]
    simp only [hord, send_loop_nil, List.foldl_nil]

/-- C9 (amended).  Every event produced by create_heartbeat_event has
    type HEARTBEAT, carries exactly one payload entry (the timestamp),
    and has no task_id; its user_id is whatever the factory's user_id
    argument is (None by default, as in the heartbeat loop), so the
    event is system-scoped exactly when the caller passes no user_id. -/
theorem C9_heartbeat_factory (now : Nat) (uid : Option UserId)
    (sid : Option String) :
    (WebSocketEvent.create_heartbeat_event now uid sid).type =
        WebSocketEventType.heartbeat ∧
      (WebSocketEvent.create_heartbeat_event now uid sid).data =
        [("timestamp", toString now)] ∧
      (WebSocketEvent.create_heartbeat_event now uid sid).task_id = none ∧
      (WebSocketEvent.create_heartbeat_event now uid sid).user_id = uid :=
  ⟨rfl, rfl, rfl, rfl⟩

/-- C9, counterexample to the claim as stated: called with a user_id
    argument, the heartbeat factory produces an event that does carry a
    user_id, hence is not system-scoped. -/
theorem C9_counterexample :
    (WebSocketEvent.create_heartbeat_event 0 (some "u1") none).user_id ≠ none := by
  decide

/-- C1, counterexample to the claim as stated: with one active registered
    connection and an event carrying neither task_id nor user_id whose
    kind (TASK_PROGRESS) is outside the SYSTEM_STATUS/ERROR allow-list,
    broadcast_event delivers the event to nobody, although the claim
    requires delivery to every currently-active connection. -/
theorem C1_counterexample :
    lookupA ex_st1.connections "c1" = some ex_conn1 ∧
      ex_conn1.is_active = true ∧
      (broadcast_event ok_all ex_st1 ex_ev_unscoped).2.1 = [] := by
  decide

/-- C1 (amended): broadcast_event delivers an event exactly to the
    currently registered, active connections whose transport write
    succeeds among the union of (a) task_subscribers[task_id] when the
    event has a task_id, (b) user_connections[user_id] when the event
    has a nonempty user_id, and (c) all connections when the event type
    is SYSTEM_STATUS or ERROR; an event with neither scoping field and a
    type outside that allow-list is delivered to no one. -/
theorem C1_broadcast_targeting (ok : ConnId → Bool) (st : WebSocketManager)
    (ev : WebSocketEvent) (cid : ConnId)
    (hnd : (st.connections.map Prod.fst).Nodup) :
    cid ∈ (broadcast_event ok st ev).2.1 ↔
      ((∃ t, ev.task_id = some t ∧
          ∃ s, lookupA st.task_subscribers t = some s ∧ cid ∈ s) ∨
        (∃ u, ev.user_id = some u ∧ u ≠ "" ∧
          ∃ s, lookupA st.user_connections u = some s ∧ cid ∈ s) ∨
        ((ev.type = WebSocketEventType.system_status ∨
          ev.type = WebSocketEventType.error) ∧
          cid ∈ st.connections.map Prod.fst)) ∧
      ∃ c, lookupA st.connections cid = some c ∧ c.is_active = true ∧
        ok cid = true := by
  rw [broadcast_delivered_iff ok st ev cid hnd, mem_broadcast_targets]

/-- C1 witness: in the one-connection state with c1 subscribed to task
    42, a TASK_UPDATED event scoped to task 42 is delivered to c1. -/
theorem C1_witness : "c1" ∈ (broadcast_event ok_all ex_st_sub ex_ev_task42).2.1 :=
  (C1_broadcast_targeting ok_all ex_st_sub ex_ev_task42 "c1" (by decide)).mpr
    ⟨Or.inl ⟨42, rfl, {"c1"}, by decide, by decide⟩,
      ⟨{ connection_id := "c1"
         user_id := none
         session_id := none
         connected_at := 0
         last_heartbeat := 0
         subscribed_tasks := {42}
         is_active := true }, by decide, rfl, rfl⟩⟩

/-- ex_st1 is reachable: one connect from the empty manager. -/
theorem ex_reached_st1 : Reached ex_st1 :=
  Reached.step_connect WebSocketManager.empty "c1" none none 0 true
    Reached.initial (by decide)

/-- ex_st_sub is reachable: connect then subscribe. -/
theorem ex_reached_sub : Reached ex_st_sub :=
  Reached.step_subscribe ex_st1 "c1" 42 ex_reached_st1

/-- The registry entry of c1 in ex_st_sub. -/
def ex_conn1_sub : WebSocketConnection :=
  { connection_id := "c1"
    user_id := none
    session_id := none
    connected_at := 0
    last_heartbeat := 0
    subscribed_tasks := {42}
    is_active := true }

/-- C3: in every reachable state the derived indices are consistent with
    the per-connection fields: a registered connection whose user_id is a
    key of user_connections appears in that key's set; every task in a
    connection's subscribed_tasks has a task_subscribers entry containing
    the connection; every id stored in either index belongs to a
    registered connection (with the matching per-connection field). -/
theorem C3_index_consistency {st : WebSocketManager} (h : Reached st) :
    (∀ cid c, lookupA st.connections cid = some c →
      ∀ u, c.user_id = some u →
      ∀ s, lookupA st.user_connections u = some s → cid ∈ s) ∧
    (∀ cid c, lookupA st.connections cid = some c →
      ∀ t, t ∈ c.subscribed_tasks →
      ∃ s, lookupA st.task_subscribers t = some s ∧ cid ∈ s) ∧
    (∀ t s, lookupA st.task_subscribers t = some s →
      ∀ cid ∈ s, ∃ c, lookupA st.connections cid = some c ∧
        t ∈ c.subscribed_tasks) ∧
    (∀ u s, lookupA st.user_connections u = some s →
      ∀ cid ∈ s, cid ∈ st.connections.map Prod.fst) ∧
    (∀ t s, lookupA st.task_subscribers t = some s →
      ∀ cid ∈ s, cid ∈ st.connections.map Prod.fst) := by
  have hin := reached_inv h
  refine ⟨?_, ?_, ?_, ?_, ?_⟩
  · intro cid c hc u hu s hs
    have hne : u ≠ "" := (hin.user_sets u s hs).1
    obtain ⟨s2, hs2, hmem⟩ := hin.conn_user cid c hc u hu hne
    rw [hs] at hs2
    obtain rfl : s = s2 := Option.some.inj hs2
    exact hmem
  · exact fun cid c hc t ht => hin.conn_task cid c hc t ht
  · exact fun t s hs cid hcid => (hin.task_sets t s hs).2 cid hcid
  · intro u s hs cid hcid
    obtain ⟨c, hc, _⟩ := (hin.user_sets u s hs).2.2 cid hcid
    by_contra h0
    have h1 := (lookupA_none_iff st.connections cid).mpr h0
    rw [h1] at hc
    exact Option.noConfusion hc
  · intro t s hs cid hcid
    obtain ⟨c, hc, _⟩ := (hin.task_sets t s hs).2 cid hcid
    by_contra h0
    have h1 := (lookupA_none_iff st.connections cid).mpr h0
    rw [h1] at hc
    exact Option.noConfusion hc

/-- C3 witness: in the concrete reachable state with c1 subscribed to
    task 42, the task index holds c1 under key 42. -/
theorem C3_witness :
    ∃ s, lookupA ex_st_sub.task_subscribers 42 = some s ∧ "c1" ∈ s :=
  (C3_index_consistency ex_reached_sub).2.1 "c1" ex_conn1_sub (by decide)
    42 (by decide)

theorem disconnect_unknown (st : WebSocketManager) (cid : ConnId)
    (h : lookupA st.connections cid = none) : disconnect st cid = st := by
  unfold disconnect
  rw [h]

/-- C4: disconnect of an unregistered id returns the state unchanged;
    disconnecting the same id twice equals disconnecting it once; and in
    any reachable state, after a disconnect the id is gone from the
    registry and from every (necessarily nonempty) set of both indices. -/
theorem C4_disconnect_idempotent_total (st : WebSocketManager) (cid : ConnId) :
    (lookupA st.connections cid = none → disconnect st cid = st) ∧
    disconnect (disconnect st cid) cid = disconnect st cid ∧
    (Reached st →
      lookupA (disconnect st cid).connections cid = none ∧
      (∀ u s, lookupA (disconnect st cid).user_connections u = some s →
        cid ∉ s ∧ s ≠ ∅) ∧
      (∀ t s, lookupA (disconnect st cid).task_subscribers t = some s →
        cid ∉ s ∧ s ≠ ∅)) := by
  refine ⟨disconnect_unknown st cid, disconnect_unknown _ _ (disconnect_lookup_self st cid), ?_⟩
  intro hr
  have hin := inv_disconnect (reached_inv hr) cid
  refine ⟨disconnect_lookup_self st cid, ?_, ?_⟩
  · intro u s hs
    obtain ⟨_, hne, hmem⟩ := hin.user_sets u s hs
    refine ⟨?_, hne⟩
    intro hc
    obtain ⟨c, hc2, _⟩ := hmem cid hc
    rw [disconnect_lookup_self st cid] at hc2
    exact Option.noConfusion hc2
  · intro t s hs
    obtain ⟨hne, hmem⟩ := hin.task_sets t s hs
    refine ⟨?_, hne⟩
    intro hc
    obtain ⟨c, hc2, _⟩ := hmem cid hc
    rw [disconnect_lookup_self st cid] at hc2
    exact Option.noConfusion hc2

/-- C4 witness: disconnecting c1 twice in the concrete reachable state
    equals disconnecting once, and c1 is gone from the registry. -/
theorem C4_witness :
    disconnect (disconnect ex_st_sub "c1") "c1" = disconnect ex_st_sub "c1" ∧
    lookupA (disconnect ex_st_sub "c1").connections "c1" = none :=
  ⟨(C4_disconnect_idempotent_total ex_st_sub "c1").2.1,
   ((C4_disconnect_idempotent_total ex_st_sub "c1").2.2 ex_reached_sub).1⟩

/-- C5: subscribing a connection to the same task twice yields exactly
    the state of subscribing once; unsubscribing from a task the
    connection is not subscribed to leaves the reachable state unchanged;
    and when an unsubscribe empties task_subscribers[task_id], that key
    is removed from the map. -/
theorem C5_subscribe_unsubscribe_idempotent (st : WebSocketManager)
    (cid : ConnId) (tid : TaskId) :
    subscribe_task (subscribe_task st cid tid) cid tid =
        subscribe_task st cid tid ∧
    (Reached st → ∀ c, lookupA st.connections cid = some c →
      tid ∉ c.subscribed_tasks → unsubscribe_task st cid tid = st) ∧
    (∀ c s, lookupA st.connections cid = some c →
      lookupA st.task_subscribers tid = some s → s.erase cid = ∅ →
      lookupA (unsubscribe_task st cid tid).task_subscribers tid = none) := by
  refine ⟨?_, ?_, ?_⟩
  · cases hl : lookupA st.connections cid with
    | none =>
        have h1 : subscribe_task st cid tid = st := by
          unfold subscribe_task
          rw [hl]
        rw [h1]
        exact h1
    | some conn =>
        have hst2 : subscribe_task st cid tid =
            { connections := insertA st.connections cid
                ({ conn with subscribed_tasks := insert tid conn.subscribed_tasks })
              user_connections := st.user_connections
              task_subscribers := insertA st.task_subscribers tid
                (insert cid ((lookupA st.task_subscribers tid).getD ∅))
              close_calls := st.close_calls
              used_ids := st.used_ids } := by
          unfold subscribe_task
          rw [hl]
        rw [hst2]
        unfold subscribe_task
        rw [show lookupA (insertA st.connections cid
            ({ conn with subscribed_tasks := insert tid conn.subscribed_tasks })) cid =
            some ({ conn with subscribed_tasks := insert tid conn.subscribed_tasks })
            from by rw [lookupA_insertA] ; exact if_pos rfl]
        rw [show lookupA (insertA st.task_subscribers tid
            (insert cid ((lookupA st.task_subscribers tid).getD ∅))) tid =
            some (insert cid ((lookupA st.task_subscribers tid).getD ∅))
            from by rw [lookupA_insertA] ; exact if_pos rfl]
        simp only [Option.getD_some, Finset.insert_idem, insertA_insertA]
  · intro hr c hl hnotin
    have hin := reached_inv hr
    have hst2 : unsubscribe_task st cid tid =
        { connections := insertA st.connections cid
            ({ c with subscribed_tasks := c.subscribed_tasks.erase tid })
          user_connections := st.user_connections
          task_subscribers := discard_prune st.task_subscribers tid cid
          close_calls := st.close_calls
          used_ids := st.used_ids } := by
      unfold unsubscribe_task
      rw [hl]
    rw [hst2]
    have h2 : discard_prune st.task_subscribers tid cid = st.task_subscribers := by
      cases hts : lookupA st.task_subscribers tid with
      | none => exact discard_prune_of_none cid hts
      | some s =>
          have hcid : cid ∉ s := by
            intro hc
            obtain ⟨c2, hc2, ht2⟩ := (hin.task_sets tid s hts).2 cid hc
            rw [hl] at hc2
            obtain rfl : c = c2 := Option.some.inj hc2
            exact hnotin ht2
          have hse : s.erase cid = s := Finset.erase_eq_of_not_mem hcid
          have hsne : s ≠ ∅ := (hin.task_sets tid s hts).1
          unfold discard_prune
          rw [hts]
          simp only [hse, if_neg hsne]
          exact insertA_lookup_self hts
    have h1 : c.subscribed_tasks.erase tid = c.subscribed_tasks :=
      Finset.erase_eq_of_not_mem hnotin
    rw [h1, h2]
    rw [show ({ c with subscribed_tasks := c.subscribed_tasks }) = c from rfl]
    rw [insertA_lookup_self hl]
  · intro c s hl hts hse
    have hst2 : unsubscribe_task st cid tid =
        { connections := insertA st.connections cid
            ({ c with subscribed_tasks := c.subscribed_tasks.erase tid })
          user_connections := st.user_connections
          task_subscribers := discard_prune st.task_subscribers tid cid
          close_calls := st.close_calls
          used_ids := st.used_ids } := by
      unfold unsubscribe_task
      rw [hl]
    rw [hst2]
    show lookupA (discard_prune st.task_subscribers tid cid) tid = none
    rw [lookupA_discard_prune_self cid hts, if_pos hse]

/-- C5 witness: double-subscribing c1 to task 7 equals subscribing once,
    and unsubscribing c1 from a task it never subscribed to (99) leaves
    the state untouched. -/
theorem C5_witness :
    subscribe_task (subscribe_task ex_st_sub "c1" 7) "c1" 7 =
        subscribe_task ex_st_sub "c1" 7 ∧
    unsubscribe_task ex_st_sub "c1" 99 = ex_st_sub :=
  ⟨(C5_subscribe_unsubscribe_idempotent ex_st_sub "c1" 7).1,
   (C5_subscribe_unsubscribe_idempotent ex_st_sub "c1" 99).2.1 ex_reached_sub
     ex_conn1_sub (by decide) (by decide)⟩

theorem subscribe_task_lookup_self (st : WebSocketManager) (cid : ConnId)
    (tid : TaskId) {conn1 : WebSocketConnection}
    (hl1 : lookupA st.connections cid = some conn1) :
    lookupA (subscribe_task st cid tid).connections cid =
      some ({ conn1 with subscribed_tasks := insert tid conn1.subscribed_tasks }) := by
  have hst2 : subscribe_task st cid tid =
      { connections := insertA st.connections cid
          ({ conn1 with subscribed_tasks := insert tid conn1.subscribed_tasks })
        user_connections := st.user_connections
        task_subscribers := insertA st.task_subscribers tid
          (insert cid ((lookupA st.task_subscribers tid).getD ∅))
        close_calls := st.close_calls
        used_ids := st.used_ids } := by
    unfold subscribe_task
    rw [hl1]
  rw [hst2]
  change lookupA (insertA st.connections cid _) cid = _
  rw [lookupA_insertA]
  exact if_pos rfl

theorem unsubscribe_task_lookup_self (st : WebSocketManager) (cid : ConnId)
    (tid : TaskId) {conn1 : WebSocketConnection}
    (hl1 : lookupA st.connections cid = some conn1) :
    lookupA (unsubscribe_task st cid tid).connections cid =
      some ({ conn1 with subscribed_tasks := conn1.subscribed_tasks.erase tid }) := by
  have hst2 : unsubscribe_task st cid tid =
      { connections := insertA st.connections cid
          ({ conn1 with subscribed_tasks := conn1.subscribed_tasks.erase tid })
        user_connections := st.user_connections
        task_subscribers := discard_prune st.task_subscribers tid cid
        close_calls := st.close_calls
        used_ids := st.used_ids } := by
    unfold unsubscribe_task
    rw [hl1]
  rw [hst2]
  change lookupA (insertA st.connections cid _) cid = _
  rw [lookupA_insertA]
  exact if_pos rfl

theorem handle_subscribe_spec (up : String → Option TaskId)
    (st : WebSocketManager) (cid : ConnId) (msg : RawMessage)
    {conn1 : WebSocketConnection} {now : Nat}
    (hl1 : lookupA st.connections cid = some conn1)
    (hhb : conn1.last_heartbeat = now) :
    (∃ c2, lookupA (handle_subscribe_task up st cid msg).1.connections cid =
      some c2 ∧ c2.last_heartbeat = now) ∧
    (handle_subscribe_task up st cid msg).2.request_id = msg.request_id := by
  unfold handle_subscribe_task
  split
  · exact ⟨⟨conn1, hl1, hhb⟩, rfl⟩
  · split
    · exact ⟨⟨conn1, hl1, hhb⟩, rfl⟩
    · split
      · exact ⟨⟨conn1, hl1, hhb⟩, rfl⟩
      · refine ⟨⟨_, subscribe_task_lookup_self st cid _ hl1, hhb⟩, rfl⟩

theorem handle_unsubscribe_spec (up : String → Option TaskId)
    (st : WebSocketManager) (cid : ConnId) (msg : RawMessage)
    {conn1 : WebSocketConnection} {now : Nat}
    (hl1 : lookupA st.connections cid = some conn1)
    (hhb : conn1.last_heartbeat = now) :
    (∃ c2, lookupA (handle_unsubscribe_task up st cid msg).1.connections cid =
      some c2 ∧ c2.last_heartbeat = now) ∧
    (handle_unsubscribe_task up st cid msg).2.request_id = msg.request_id := by
  unfold handle_unsubscribe_task
  split
  · exact ⟨⟨conn1, hl1, hhb⟩, rfl⟩
  · split
    · exact ⟨⟨conn1, hl1, hhb⟩, rfl⟩
    · split
      · exact ⟨⟨conn1, hl1, hhb⟩, rfl⟩
      · refine ⟨⟨_, unsubscribe_task_lookup_self st cid _ hl1, hhb⟩, rfl⟩

theorem dispatch_message_spec (up : String → Option TaskId)
    (st : WebSocketManager) (cid : ConnId) (conn1 : WebSocketConnection)
    (msg : RawMessage) (now : Nat) (ty : String)
    (hl1 : lookupA st.connections cid = some conn1)
    (hhb : conn1.last_heartbeat = now) :
    (∃ c2, lookupA (dispatch_message up st cid conn1 msg now ty).1.connections
      cid = some c2 ∧ c2.last_heartbeat = now) ∧
    (dispatch_message up st cid conn1 msg now ty).2.request_id =
      msg.request_id := by
  unfold dispatch_message
  by_cases h1 : ty = "subscribe_task"
  · rw [if_pos h1]
    exact handle_subscribe_spec up st cid msg hl1 hhb
  · rw [if_neg h1]
    by_cases h2 : ty = "unsubscribe_task"
    · rw [if_pos h2]
      exact handle_unsubscribe_spec up st cid msg hl1 hhb
    · rw [if_neg h2]
      by_cases h3 : ty = "heartbeat"
      · rw [if_pos h3]
        refine ⟨⟨{ conn1 with last_heartbeat := now }, ?_, rfl⟩, rfl⟩
        change lookupA (insertA st.connections cid _) cid = _
        rw [lookupA_insertA]
        exact if_pos rfl
      · rw [if_neg h3]
        by_cases h4 : ty = "get_status"
        · rw [if_pos h4]
          exact ⟨⟨conn1, hl1, hhb⟩, rfl⟩
        · rw [if_neg h4]
          exact ⟨⟨conn1, hl1, hhb⟩, rfl⟩

/-- C6 (amended): an unknown connection id yields the error Response
    "Connection not found" with the state unchanged — but with a None
    request id regardless of the client-supplied one; a malformed
    message (missing type) yields an error Response echoing the raw
    message's request_id with the state unchanged; and every well-formed
    message bumps the connection's last_heartbeat to the current time
    and produces a Response carrying the original request_id unchanged. -/
theorem C6_handle_message_spec (up : String → Option TaskId)
    (st : WebSocketManager) (cid : ConnId) (msg : RawMessage) (now : Nat) :
    (lookupA st.connections cid = none →
      handle_message up st cid msg now =
        (st, WebSocketResponse.error_response "error" "Connection not found"
          none)) ∧
    (∀ c, lookupA st.connections cid = some c → msg.type = none →
      handle_message up st cid msg now =
        (st, WebSocketResponse.error_response "error" "Invalid message format"
          msg.request_id)) ∧
    (∀ c ty, lookupA st.connections cid = some c → msg.type = some ty →
      (∃ c2, lookupA (handle_message up st cid msg now).1.connections cid =
        some c2 ∧ c2.last_heartbeat = now) ∧
      (handle_message up st cid msg now).2.request_id = msg.request_id) := by
  refine ⟨?_, ?_, ?_⟩
  · intro h
    unfold handle_message
    rw [h]
  · intro c hl hty
    unfold handle_message
    rw [hl, hty]
  · intro c ty hl hty
    have hmsg : handle_message up st cid msg now =
        dispatch_message up
          ({ connections := insertA st.connections cid
              ({ c with last_heartbeat := now })
             user_connections := st.user_connections
             task_subscribers := st.task_subscribers
             close_calls := st.close_calls
             used_ids := st.used_ids })
          cid ({ c with last_heartbeat := now }) msg now ty := by
      unfold handle_message
      rw [hl, hty]
    rw [hmsg]
    refine dispatch_message_spec up _ cid _ msg now ty ?_ rfl
    change lookupA (insertA st.connections cid _) cid = _
    rw [lookupA_insertA]
    exact if_pos rfl

/-- A heartbeat control message carrying the correlation id r1. -/
def ex_msg_hb : RawMessage :=
  { type := some "heartbeat"
    data_task_id := none
    request_id := some "r1" }

/-- C6, counterexample to the claim as stated: on an unknown connection
    id the error Response drops the client-supplied correlation id — the
    message carries request_id r1, the Response carries None. -/
theorem C6_counterexample :
    ex_msg_hb.request_id = some "r1" ∧
    (handle_message up0 WebSocketManager.empty "cx" ex_msg_hb 0).2.request_id
      = none := by
  decide

/-- C6 witness: a well-formed heartbeat message from registered c1 gets
    a Response echoing r1 and bumps c1's last_heartbeat to the current
    time. -/
theorem C6_witness :
    (handle_message up0 ex_st_sub "c1" ex_msg_hb 5).2.request_id =
        some "r1" ∧
    (∃ c2, lookupA (handle_message up0 ex_st_sub "c1" ex_msg_hb 5).1.connections
      "c1" = some c2 ∧ c2.last_heartbeat = 5) :=
  have h := (C6_handle_message_spec up0 ex_st_sub "c1" ex_msg_hb 5).2.2
    ex_conn1_sub "heartbeat" (by decide) rfl
  ⟨h.2, h.1⟩

/-- C7: in a broadcast whose resolved target set is three distinct
    registered active connections a, b, c where only b's send fails, a
    and c still receive the event, b does not, exactly b is disconnected
    afterwards (a and c keep their registry entries unchanged), and the
    call is a total function of the state — no failure escapes to the
    producer. -/
theorem C7_partial_failure_isolation (ok : ConnId → Bool)
    (st : WebSocketManager) (ev : WebSocketEvent) (a b c : ConnId)
    (ca cb cc : WebSocketConnection)
    (hnd : (st.connections.map Prod.fst).Nodup)
    (htar : broadcast_targets st ev = {a, b, c})
    (hla : lookupA st.connections a = some ca) (haa : ca.is_active = true)
    (hlb : lookupA st.connections b = some cb) (hba : cb.is_active = true)
    (hlc : lookupA st.connections c = some cc) (hca : cc.is_active = true)
    (hoa : ok a = true) (hob : ok b = false) (hoc : ok c = true) :
    a ∈ (broadcast_event ok st ev).2.1 ∧
    c ∈ (broadcast_event ok st ev).2.1 ∧
    b ∉ (broadcast_event ok st ev).2.1 ∧
    lookupA (broadcast_event ok st ev).1.connections b = none ∧
    lookupA (broadcast_event ok st ev).1.connections a =
      lookupA st.connections a ∧
    lookupA (broadcast_event ok st ev).1.connections c =
      lookupA st.connections c := by
  have hma : a ∈ broadcast_targets st ev := by
    rw [htar]
    simp
  have hmb : b ∈ broadcast_targets st ev := by
    rw [htar]
    simp
  have hmc : c ∈ broadcast_targets st ev := by
    rw [htar]
    simp
  refine ⟨?_, ?_, ?_, ?_, ?_, ?_⟩
  · exact (broadcast_delivered_iff ok st ev a hnd).mpr ⟨hma, ca, hla, haa, hoa⟩
  · exact (broadcast_delivered_iff ok st ev c hnd).mpr ⟨hmc, cc, hlc, hca, hoc⟩
  · intro hm
    obtain ⟨_, c2, hc2, _, hok⟩ := (broadcast_delivered_iff ok st ev b hnd).mp hm
    rw [hob] at hok
    exact Bool.noConfusion hok
  · refine broadcast_failed_removed ok st ev b ?_
    exact (broadcast_failed_iff ok st ev b hnd).mpr ⟨hmb, cb, hlb, hba, hob⟩
  · refine broadcast_lookup_preserved ok st ev a ?_
    intro hm
    obtain ⟨_, c2, hc2, _, hok⟩ := (broadcast_failed_iff ok st ev a hnd).mp hm
    rw [hoa] at hok
    exact Bool.noConfusion hok
  · refine broadcast_lookup_preserved ok st ev c ?_
    intro hm
    obtain ⟨_, c2, hc2, _, hok⟩ := (broadcast_failed_iff ok st ev c hnd).mp hm
    rw [hoc] at hok
    exact Bool.noConfusion hok

/-- Three active connections a, b, c. -/
def ex_st3 : WebSocketManager :=
  connect (connect (connect WebSocketManager.empty "a" none none 0 true)
    "b" none none 0 true) "c" none none 0 true

/-- Oracle under which only the write to b fails. -/
def ok_not_b : ConnId → Bool := fun x => if x = "b" then false else true

/-- The registry entry shape of the three connections in ex_st3. -/
def ex_conn_of (cid : ConnId) : WebSocketConnection :=
  { connection_id := cid
    user_id := none
    session_id := none
    connected_at := 0
    last_heartbeat := 0
    subscribed_tasks := ∅
    is_active := true }

/-- C7 witness: a SYSTEM_STATUS broadcast over three active connections
    with b's send failing delivers to a and c, not to b, and removes
    exactly b from the registry. -/
theorem C7_witness :
    "a" ∈ (broadcast_event ok_not_b ex_st3 ex_ev_system).2.1 ∧
    "c" ∈ (broadcast_event ok_not_b ex_st3 ex_ev_system).2.1 ∧
    "b" ∉ (broadcast_event ok_not_b ex_st3 ex_ev_system).2.1 ∧
    lookupA (broadcast_event ok_not_b ex_st3 ex_ev_system).1.connections "b" =
      none ∧
    lookupA (broadcast_event ok_not_b ex_st3 ex_ev_system).1.connections "a" =
      lookupA ex_st3.connections "a" ∧
    lookupA (broadcast_event ok_not_b ex_st3 ex_ev_system).1.connections "c" =
      lookupA ex_st3.connections "c" :=
  C7_partial_failure_isolation ok_not_b ex_st3 ex_ev_system "a" "b" "c"
    (ex_conn_of "a") (ex_conn_of "b") (ex_conn_of "c")
    (by decide) (by decide)
    (by decide) rfl (by decide) rfl (by decide) rfl
    rfl rfl rfl

/-- The one-connection state after its failing SYSTEM_STATUS broadcast:
    the send failure marks c1 inactive and the follow-up disconnect
    removes it without invoking websocket.close(). -/
def ex_st_closed : WebSocketManager := (broadcast_event ok_none ex_st1 ex_ev_system).1

/-- C8, counterexample to the claim as stated: c1 is registered and
    active, a broadcast whose send to c1 fails removes c1 from the
    registry — a completed lifetime — yet the transport close was
    invoked zero times, not exactly once (disconnect skips close for
    connections already marked inactive, manager.py 166-168). -/
theorem C8_counterexample :
    lookupA ex_st1.connections "c1" = some ex_conn1 ∧
    ex_conn1.is_active = true ∧
    ex_st_closed.connections = [] ∧
    ex_st_closed.close_calls = [] := by
  decide

/-- C8 (amended): websocket.close() is invoked at most once per
    connection id over any reachable history, and only by disconnect:
    disconnect invokes it exactly when the connection is still marked
    active, skips it for an inactive or unknown connection, and removes
    the connection from the registry regardless of the close outcome
    (close failures are swallowed: the resulting state never depends on
    it). -/
theorem C8_close_semantics (st : WebSocketManager) :
    (Reached st → ∀ cid, st.close_calls.count cid ≤ 1) ∧
    (∀ cid c, lookupA st.connections cid = some c → c.is_active = true →
      (disconnect st cid).close_calls = st.close_calls ++ [cid]) ∧
    (∀ cid c, lookupA st.connections cid = some c → c.is_active = false →
      (disconnect st cid).close_calls = st.close_calls) ∧
    (∀ cid, lookupA st.connections cid = none →
      (disconnect st cid).close_calls = st.close_calls) ∧
    (∀ cid, lookupA (disconnect st cid).connections cid = none) := by
  refine ⟨?_, ?_, ?_, ?_, ?_⟩
  · intro hr cid
    exact (reached_inv hr).close_once cid
  · intro cid c hl ha
    have hst2 : disconnect st cid =
        { connections := eraseA st.connections cid
          user_connections := untrack_user st.user_connections c.user_id cid
          task_subscribers := prune_all st.task_subscribers
            (c.subscribed_tasks.sort (· ≤ ·)) cid
          close_calls :=
            if c.is_active then st.close_calls ++ [cid] else st.close_calls
          used_ids := st.used_ids } := by
      unfold disconnect
      rw [hl]
    rw [hst2]
    show (if c.is_active = true then st.close_calls ++ [cid]
      else st.close_calls) = st.close_calls ++ [cid]
    rw [if_pos ha]
  · intro cid c hl ha
    have hst2 : disconnect st cid =
        { connections := eraseA st.connections cid
          user_connections := untrack_user st.user_connections c.user_id cid
          task_subscribers := prune_all st.task_subscribers
            (c.subscribed_tasks.sort (· ≤ ·)) cid
          close_calls :=
            if c.is_active then st.close_calls ++ [cid] else st.close_calls
          used_ids := st.used_ids } := by
      unfold disconnect
      rw [hl]
    rw [hst2]
    show (if c.is_active = true then st.close_calls ++ [cid]
      else st.close_calls) = st.close_calls
    rw [if_neg]
    intro h0
    rw [ha] at h0
    exact Bool.noConfusion h0
  · intro cid h
    rw [disconnect_unknown st cid h]
  · exact fun cid => disconnect_lookup_self st cid

/-- C8 witness: in the concrete reachable state, c1's close count is at
    most one, and disconnecting the still-active c1 logs exactly one
    close invocation. -/
theorem C8_witness :
    ex_st_sub.close_calls.count "c1" ≤ 1 ∧
    (disconnect ex_st_sub "c1").close_calls = ex_st_sub.close_calls ++ ["c1"] :=
  ⟨(C8_close_semantics ex_st_sub).1 ex_reached_sub "c1",
   (C8_close_semantics ex_st_sub).2.1 "c1" ex_conn1_sub (by decide) rfl⟩

/-- C10: in each of the three send paths, a connection id that is in the
    resolved target set but unregistered or inactive receives nothing,
    is not recorded as a failed send, and keeps its registry entry
    exactly as it was — it is not disconnected by the call.  (Stated for
    every id that is unregistered or inactive, which subsumes the
    targeted ones.) -/
theorem C10_inactive_skipped (ok : ConnId → Bool) (st : WebSocketManager)
    (ev : WebSocketEvent) (u : UserId) (t : TaskId) (cid : ConnId)
    (hnd : (st.connections.map Prod.fst).Nodup)
    (hskip : lookupA st.connections cid = none ∨
      ∃ c, lookupA st.connections cid = some c ∧ c.is_active = false) :
    (cid ∉ (broadcast_event ok st ev).2.1 ∧
      cid ∉ (broadcast_event ok st ev).2.2 ∧
      lookupA (broadcast_event ok st ev).1.connections cid =
        lookupA st.connections cid) ∧
    (cid ∉ (send_to_user ok st u ev).2.1 ∧
      cid ∉ (send_to_user ok st u ev).2.2 ∧
      lookupA (send_to_user ok st u ev).1.connections cid =
        lookupA st.connections cid) ∧
    (cid ∉ (send_to_task_subscribers ok st t ev).2.1 ∧
      cid ∉ (send_to_task_subscribers ok st t ev).2.2 ∧
      lookupA (send_to_task_subscribers ok st t ev).1.connections cid =
        lookupA st.connections cid) := by
  refine ⟨?_, ?_, ?_⟩
  · unfold broadcast_event
    by_cases hc : st.connections = []
    · rw [if_pos hc]
      exact ⟨by simp, by simp, rfl⟩
    · rw [if_neg hc]
      exact send_phase_skip ok st _ (hnd.filter _) cid hskip
  · unfold send_to_user
    cases hu : lookupA st.user_connections u with
    | none => exact ⟨by simp, by simp, rfl⟩
    | some s => exact send_phase_skip ok st _ (hnd.filter _) cid hskip
  · unfold send_to_task_subscribers
    cases ht : lookupA st.task_subscribers t with
    | none => exact ⟨by simp, by simp, rfl⟩
    | some s => exact send_phase_skip ok st _ (hnd.filter _) cid hskip

/-- Two connections: active c1 and d, whose greeting send failed, so d
    is registered but inactive. -/
def ex_st_d : WebSocketManager := connect ex_st1 "d" none none 0 false

/-- C10 witness: in a SYSTEM_STATUS broadcast over ex_st_d (where the
    target set contains both ids), the inactive d receives nothing and
    keeps its registry entry unchanged. -/
theorem C10_witness :
    "d" ∉ (broadcast_event ok_all ex_st_d ex_ev_system).2.1 ∧
    "d" ∉ (broadcast_event ok_all ex_st_d ex_ev_system).2.2 ∧
    lookupA (broadcast_event ok_all ex_st_d ex_ev_system).1.connections "d" =
      lookupA ex_st_d.connections "d" :=
  (C10_inactive_skipped ok_all ex_st_d ex_ev_system "u" 0 "d" (by decide)
    (Or.inr ⟨{ connection_id := "d"
               user_id := none
               session_id := none
               connected_at := 0
               last_heartbeat := 0
               subscribed_tasks := ∅
               is_active := false }, by decide, rfl⟩)).1

end Bytebot
